import Mathlib

/-!
# Verification of the meeting-notes-handler core

A shallow embedding of the content-versioning core of the
`meeting_notes_handler` Python package (content_hasher.py, diff_engine.py,
content_cache.py, series_tracker.py, document_classifier.py,
smart_extractor.py), together with proofs and refutations of the
specification's claims about it.

Python strings are modelled as lists of Unicode code points (`PyStr`),
Python floats as exact rationals, Python dicts as insertion-ordered
association lists, and Python exceptions as `Except PyErr`.  The hash
functions used by the code (SHA-256 and MD5 from `hashlib`) are implemented
concretely over byte lists so that hash values can be computed inside
proofs.  Character-level predicates (`\s`, `\w`, `str.isupper`, …) are
modelled on their ASCII behaviour, which covers every input appearing in
the development.
-/

set_option maxRecDepth 20000

namespace MNH

/-- A Python string: its list of Unicode code points. -/
abbrev PyStr := List Nat

/-- Code points of a Lean string literal, for writing concrete Python strings. -/
def pys (s : String) : PyStr := s.toList.map Char.toNat

/-- Python `str.isspace`-style whitespace (ASCII subset: space, \t, \n, \r, \x0b, \x0c). -/
def pyIsSpace (c : Nat) : Bool :=
  c == 32 || c == 9 || c == 10 || c == 13 || c == 11 || c == 12

/-- Python `str.lower` on one code point (ASCII: A-Z map to a-z). -/
def pyLowerChar (c : Nat) : Nat :=
  if 65 ≤ c ∧ c ≤ 90 then c + 32 else c

/-- Python `str.lower`. -/
def pyLower (s : PyStr) : PyStr := s.map pyLowerChar

/-- Python `str.upper` on one code point (ASCII). -/
def pyUpperChar (c : Nat) : Nat :=
  if 97 ≤ c ∧ c ≤ 122 then c - 32 else c

/-- Python `str.upper`. -/
def pyUpper (s : PyStr) : PyStr := s.map pyUpperChar

/-- Python `str.strip()`: drop leading and trailing whitespace. -/
def pyStrip (s : PyStr) : PyStr :=
  ((s.dropWhile pyIsSpace).reverse.dropWhile pyIsSpace).reverse

/-- Worker for `pySplitWs`: scan characters, accumulating the current word. -/
def pySplitWsGo (s : PyStr) (cur : PyStr) : List PyStr :=
  match s with
  | [] => if cur = [] then [] else [cur.reverse]
  | c :: rest =>
      if pyIsSpace c then
        if cur = [] then pySplitWsGo rest []
        else cur.reverse :: pySplitWsGo rest []
      else pySplitWsGo rest (c :: cur)

/-- Python `str.split()` with no argument: split on whitespace runs, no empties. -/
def pySplitWs (s : PyStr) : List PyStr := pySplitWsGo s []

/-- Split a Python string at every occurrence of one separator code point,
keeping empty pieces (Python `str.split('\n')` etc.). -/
def splitOnChar (sep : Nat) (s : PyStr) : List PyStr :=
  match s with
  | [] => [[]]
  | c :: rest =>
      if c == sep then [] :: splitOnChar sep rest
      else
        match splitOnChar sep rest with
        | [] => [[c]]
        | p :: ps => (c :: p) :: ps

/-- Join a list of strings with a separator string (Python `sep.join`). -/
def joinWith (sep : PyStr) : List PyStr → PyStr
  | [] => []
  | [x] => x
  | x :: xs => x ++ sep ++ joinWith sep xs

/-- Fuelled worker for `pyReplace`; the fuel is spent one unit per step and
each step consumes at least one character, so `s.length` units suffice. -/
def pyReplaceF (fuel : Nat) (old new : PyStr) (s : PyStr) : PyStr :=
  match fuel with
  | 0 => s
  | f + 1 =>
      match s with
      | [] => []
      | c :: rest =>
          if old ≠ [] ∧ old.isPrefixOf (c :: rest) then
            new ++ pyReplaceF f old new ((c :: rest).drop old.length)
          else
            c :: pyReplaceF f old new rest

def pyReplace (old new : PyStr) (s : PyStr) : PyStr :=
  pyReplaceF s.length old new s

/-- `needle in haystack` for Python strings (substring containment). -/
def pyContains (haystack needle : PyStr) : Bool :=
  match haystack with
  | [] => needle == []
  | _ :: rest => needle.isPrefixOf haystack || pyContains rest needle

/-- Decimal digits of a natural number (Python `str(n)`). -/
def natToStr (n : Nat) : PyStr :=
  (Nat.toDigits 10 n).map Char.toNat

/-- Zero-padded two-digit decimal rendering (`%02d`). -/
def pad2 (n : Nat) : PyStr :=
  if n < 10 then 48 :: natToStr n else natToStr n

/-- Zero-padded four-digit decimal rendering (`%04d`), for years. -/
def pad4 (n : Nat) : PyStr :=
  if n < 10 then pys "000" ++ natToStr n
  else if n < 100 then pys "00" ++ natToStr n
  else if n < 1000 then pys "0" ++ natToStr n
  else natToStr n

/-! ## UTF-8 encoding (`str.encode('utf-8')`) -/

/-- UTF-8 encoding of one code point. -/
def utf8EncodeChar (c : Nat) : List Nat :=
  if c < 128 then [c]
  else if c < 2048 then [192 + c / 64, 128 + c % 64]
  else if c < 65536 then [224 + c / 4096, 128 + (c / 64) % 64, 128 + c % 64]
  else [240 + c / 262144, 128 + (c / 4096) % 64, 128 + (c / 64) % 64, 128 + c % 64]

/-- UTF-8 encoding of a string, as a list of bytes. -/
def utf8Encode (s : PyStr) : List Nat := s.flatMap utf8EncodeChar

/-! ## Hexadecimal rendering -/

/-- One lowercase hex digit. -/
def hexDigit (n : Nat) : Nat :=
  if n < 10 then 48 + n else 87 + n

/-- Lowercase hex rendering of one byte (two digits). -/
def byteToHex (b : Nat) : PyStr := [hexDigit (b / 16 % 16), hexDigit (b % 16)]

/-- Lowercase hex rendering of a byte list (`hexdigest`). -/
def bytesToHex (bs : List Nat) : PyStr := bs.flatMap byteToHex

/-! ## 32-bit word arithmetic -/

def mask32 : Nat := 4294967296

/-- Truncate to 32 bits. -/
def u32 (n : Nat) : Nat := n % mask32

/-- 32-bit addition. -/
def add32 (a b : Nat) : Nat := (a + b) % mask32

/-- 32-bit right rotation (argument assumed < 2^32, 0 < n < 32). -/
def rotr32 (n x : Nat) : Nat := ((x >>> n) ||| (x <<< (32 - n))) % mask32

/-- 32-bit left rotation (argument assumed < 2^32, 0 < n < 32). -/
def rotl32 (n x : Nat) : Nat := ((x <<< n) ||| (x >>> (32 - n))) % mask32

/-- 32-bit complement. -/
def not32 (x : Nat) : Nat := x ^^^ 4294967295

/-- Fuelled worker for `chunkList`. -/
def chunkListF (fuel k : Nat) (l : List α) : List (List α) :=
  match fuel with
  | 0 => []
  | f + 1 =>
      match l with
      | [] => []
      | c :: rest =>
          if k = 0 then []
          else (c :: rest).take k :: chunkListF f k ((c :: rest).drop k)

/-- Split a list into chunks of `k` elements (`k > 0`). -/
def chunkList (k : Nat) (l : List α) : List (List α) :=
  chunkListF l.length k l

/-- Big-endian 32-bit words from a byte list (length a multiple of 4). -/
def bytesToWordsBE (bs : List Nat) : List Nat :=
  (chunkList 4 bs).map fun c =>
    c.foldl (fun acc b => acc * 256 + b) 0

/-- Little-endian 32-bit words from a byte list (length a multiple of 4). -/
def bytesToWordsLE (bs : List Nat) : List Nat :=
  (chunkList 4 bs).map fun c =>
    c.foldr (fun b acc => acc * 256 + b) 0

/-- Big-endian byte rendering of a 64-bit quantity. -/
def be64 (n : Nat) : List Nat :=
  [n / 2^56 % 256, n / 2^48 % 256, n / 2^40 % 256, n / 2^32 % 256,
   n / 2^24 % 256, n / 2^16 % 256, n / 2^8 % 256, n % 256]

/-- Little-endian byte rendering of a 64-bit quantity. -/
def le64 (n : Nat) : List Nat :=
  [n % 256, n / 2^8 % 256, n / 2^16 % 256, n / 2^24 % 256,
   n / 2^32 % 256, n / 2^40 % 256, n / 2^48 % 256, n / 2^56 % 256]

/-- Little-endian byte rendering of a 32-bit word. -/
def le32Bytes (n : Nat) : List Nat :=
  [n % 256, n / 2^8 % 256, n / 2^16 % 256, n / 2^24 % 256]

/-! ## SHA-256 (hashlib.sha256) -/

/-- The SHA-256 round constants. -/
def sha256K : List Nat :=
  [1116352408, 1899447441, 3049323471, 3921009573, 961987163, 1508970993,
   2453635748, 2870763221, 3624381080, 310598401, 607225278, 1426881987,
   1925078388, 2162078206, 2614888103, 3248222580, 3835390401, 4022224774,
   264347078, 604807628, 770255983, 1249150122, 1555081692, 1996064986,
   2554220882, 2821834349, 2952996808, 3210313671, 3336571891, 3584528711,
   113926993, 338241895, 666307205, 773529912, 1294757372, 1396182291,
   1695183700, 1986661051, 2177026350, 2456956037, 2730485921, 2820302411,
   3259730800, 3345764771, 3516065817, 3600352804, 4094571909, 275423344,
   430227734, 506948616, 659060556, 883997877, 958139571, 1322822218,
   1537002063, 1747873779, 1955562222, 2024104815, 2227730452, 2361852424,
   2428436474, 2756734187, 3204031479, 3329325298]

/-- The SHA-256 initial hash state. -/
def sha256H0 : List Nat :=
  [1779033703, 3144134277, 1013904242, 2773480762,
   1359893119, 2600822924, 528734635, 1541459225]

/-- Extend the 16 message words of a block to the 64-entry schedule. -/
def sha256Extend (fuel : Nat) (ws : Array Nat) : Array Nat :=
  match fuel with
  | 0 => ws
  | f + 1 =>
      let i := ws.size
      let w15 := ws.getD (i - 15) 0
      let w2 := ws.getD (i - 2) 0
      let s0 := (rotr32 7 w15) ^^^ (rotr32 18 w15) ^^^ (w15 >>> 3)
      let s1 := (rotr32 17 w2) ^^^ (rotr32 19 w2) ^^^ (w2 >>> 10)
      let w := (ws.getD (i - 16) 0 + s0 + ws.getD (i - 7) 0 + s1) % mask32
      sha256Extend f (ws.push w)

/-- One SHA-256 compression round. -/
def sha256Round (st : List Nat) (kw : Nat × Nat) : List Nat :=
  match st with
  | [a, b, c, d, e, f, g, h] =>
      let s1 := (rotr32 6 e) ^^^ (rotr32 11 e) ^^^ (rotr32 25 e)
      let ch := (e &&& f) ^^^ ((not32 e) &&& g)
      let t1 := (h + s1 + ch + kw.1 + kw.2) % mask32
      let s0 := (rotr32 2 a) ^^^ (rotr32 13 a) ^^^ (rotr32 22 a)
      let mj := (a &&& b) ^^^ (a &&& c) ^^^ (b &&& c)
      let t2 := (s0 + mj) % mask32
      [(t1 + t2) % mask32, a, b, c, add32 d t1, e, f, g]
  | other => other

/-- Process one 64-byte block into the running hash state. -/
def sha256Block (hs : List Nat) (block : List Nat) : List Nat :=
  let ws := sha256Extend 48 (bytesToWordsBE block).toArray
  let st := (sha256K.zip ws.toList).foldl sha256Round hs
  (hs.zip st).map fun p => add32 p.1 p.2

/-- SHA-256 padding of a message. -/
def sha256Pad (msg : List Nat) : List Nat :=
  let padLen := (64 - ((msg.length + 9) % 64)) % 64
  msg ++ [128] ++ List.replicate padLen 0 ++ be64 (8 * msg.length)

/-- SHA-256 digest of a byte list, as 32 bytes. -/
def sha256Bytes (msg : List Nat) : List Nat :=
  let final := (chunkList 64 (sha256Pad msg)).foldl sha256Block sha256H0
  final.flatMap fun w => [w / 2^24 % 256, w / 2^16 % 256, w / 2^8 % 256, w % 256]

/-- `hashlib.sha256(msg).hexdigest()`. -/
def sha256Hex (msg : List Nat) : PyStr := bytesToHex (sha256Bytes msg)

/-! ## MD5 (hashlib.md5) -/

/-- The MD5 sine-derived constants. -/
def md5K : List Nat :=
  [0xd76aa478, 0xe8c7b756, 0x242070db, 0xc1bdceee, 0xf57c0faf, 0x4787c62a, 0xa8304613, 0xfd469501,
   0x698098d8, 0x8b44f7af, 0xffff5bb1, 0x895cd7be, 0x6b901122, 0xfd987193, 0xa679438e, 0x49b40821,
   0xf61e2562, 0xc040b340, 0x265e5a51, 0xe9b6c7aa, 0xd62f105d, 0x02441453, 0xd8a1e681, 0xe7d3fbc8,
   0x21e1cde6, 0xc33707d6, 0xf4d50d87, 0x455a14ed, 0xa9e3e905, 0xfcefa3f8, 0x676f02d9, 0x8d2a4c8a,
   0xfffa3942, 0x8771f681, 0x6d9d6122, 0xfde5380c, 0xa4beea44, 0x4bdecfa9, 0xf6bb4b60, 0xbebfbc70,
   0x289b7ec6, 0xeaa127fa, 0xd4ef3085, 0x04881d05, 0xd9d4d039, 0xe6db99e5, 0x1fa27cf8, 0xc4ac5665,
   0xf4292244, 0x432aff97, 0xab9423a7, 0xfc93a039, 0x655b59c3, 0x8f0ccc92, 0xffeff47d, 0x85845dd1,
   0x6fa87e4f, 0xfe2ce6e0, 0xa3014314, 0x4e0811a1, 0xf7537e82, 0xbd3af235, 0x2ad7d2bb, 0xeb86d391]

/-- The MD5 per-round rotation amounts. -/
def md5S : List Nat :=
  [7, 12, 17, 22, 7, 12, 17, 22, 7, 12, 17, 22, 7, 12, 17, 22,
   5, 9, 14, 20, 5, 9, 14, 20, 5, 9, 14, 20, 5, 9, 14, 20,
   4, 11, 16, 23, 4, 11, 16, 23, 4, 11, 16, 23, 4, 11, 16, 23,
   6, 10, 15, 21, 6, 10, 15, 21, 6, 10, 15, 21, 6, 10, 15, 21]

/-- One MD5 step: mixing function value and message index for step `i`. -/
def md5FG (i b c d : Nat) : Nat × Nat :=
  if i < 16 then ((b &&& c) ||| ((not32 b) &&& d), i)
  else if i < 32 then ((d &&& b) ||| ((not32 d) &&& c), (5 * i + 1) % 16)
  else if i < 48 then (b ^^^ c ^^^ d, (3 * i + 5) % 16)
  else (c ^^^ (b ||| (not32 d)), (7 * i) % 16)

/-- The MD5 steps over one block: `fuel` steps remaining, `i` the step index. -/
def md5Steps (m : Array Nat) (fuel i : Nat) (st : Nat × Nat × Nat × Nat) :
    Nat × Nat × Nat × Nat :=
  match fuel with
  | 0 => st
  | f + 1 =>
      let (a, b, c, d) := st
      let (fv, g) := md5FG i b c d
      let rot := rotl32 (md5S.getD i 0) ((a + fv + md5K.getD i 0 + m.getD g 0) % mask32)
      md5Steps m f (i + 1) (d, add32 b rot, b, c)

/-- Process one 64-byte block into the running MD5 state. -/
def md5Block (st : Nat × Nat × Nat × Nat) (block : List Nat) : Nat × Nat × Nat × Nat :=
  let m := (bytesToWordsLE block).toArray
  let (a, b, c, d) := md5Steps m 64 0 st
  let (a0, b0, c0, d0) := st
  (add32 a0 a, add32 b0 b, add32 c0 c, add32 d0 d)

/-- MD5 padding of a message (length appended little-endian). -/
def md5Pad (msg : List Nat) : List Nat :=
  let padLen := (64 - ((msg.length + 9) % 64)) % 64
  msg ++ [128] ++ List.replicate padLen 0 ++ le64 (8 * msg.length)

/-- MD5 digest of a byte list, as 16 bytes. -/
def md5Bytes (msg : List Nat) : List Nat :=
  let st := (chunkList 64 (md5Pad msg)).foldl md5Block
    (0x67452301, 0xefcdab89, 0x98badcfe, 0x10325476)
  le32Bytes st.1 ++ le32Bytes st.2.1 ++ le32Bytes st.2.2.1 ++ le32Bytes st.2.2.2

/-- `hashlib.md5(msg).hexdigest()`. -/
def md5Hex (msg : List Nat) : PyStr := bytesToHex (md5Bytes msg)

/-! ## A small regular-expression engine

Models the fragment of Python `re` the package uses: literals, character
classes (`\d`, `\s`, `\w`, `.`, hyphen-or-slash, …), concatenation, alternation
(leftmost preference), greedy `*`/`+`/`?`/`{m,n}` with backtracking, the
word-boundary assertion `\b`, and the anchors `^`/`$` (in their MULTILINE
and single-line readings).  The matcher is a continuation-passing
backtracking matcher — the semantics Python's engine implements — with a
fuel argument for termination; the fuel bounds the recursion depth, which
for the patterns in this file is at most `(size of pattern) × (length of
string)` and is supplied with room to spare. -/

/-- Python `\w` on a code point (ASCII model: letters, digits, underscore). -/
def pyIsWord (c : Nat) : Bool :=
  (48 ≤ c && c ≤ 57) || (65 ≤ c && c ≤ 90) || (97 ≤ c && c ≤ 122) || c == 95

/-- Python `\d` on a code point. -/
def pyIsDigit (c : Nat) : Bool := 48 ≤ c && c ≤ 57

/-- Regular expressions over code points. -/
inductive RE where
  /-- matches the empty string -/
  | eps : RE
  /-- matches one code point satisfying the predicate -/
  | cls (p : Nat → Bool) : RE
  /-- concatenation -/
  | seq (a b : RE) : RE
  /-- alternation, left alternative preferred -/
  | alt (a b : RE) : RE
  /-- greedy Kleene star -/
  | star (r : RE) : RE
  /-- the word-boundary assertion `\b` -/
  | wordB : RE
  /-- `^` under `re.MULTILINE` -/
  | lineStartM : RE
  /-- `$` under `re.MULTILINE` -/
  | lineEndM : RE
  /-- `$` without `re.MULTILINE`: end of string, or just before a final newline -/
  | strEnd : RE

/-- A literal code point. -/
def RE.lit (c : Nat) : RE := .cls (· == c)

/-- A literal string. -/
def RE.str (s : String) : RE :=
  (s.toList.map Char.toNat).foldr (fun c r => .seq (.lit c) r) .eps

/-- Greedy `r+`. -/
def RE.plus (r : RE) : RE := .seq r (.star r)

/-- Greedy `r?`. -/
def RE.opt (r : RE) : RE := .alt r .eps

/-- `r{n}`: exactly `n` repetitions. -/
def RE.repN : Nat → RE → RE
  | 0, _ => .eps
  | n + 1, r => .seq r (RE.repN n r)

/-- Greedy `r{lo,hi}`: `lo` required repetitions then up to `hi - lo` optional
ones (preferring more, as Python does). -/
def RE.repRange (lo hi : Nat) (r : RE) : RE :=
  .seq (RE.repN lo r) (bounded (hi - lo) r)
where
  /-- up to `n` more repetitions, greedily -/
  bounded : Nat → RE → RE
    | 0, _ => .eps
    | n + 1, r => .alt (.seq r (bounded n r)) .eps

/-- Structural size of a regex, for fuel computation. -/
def RE.size : RE → Nat
  | .eps | .cls _ | .wordB | .lineStartM | .lineEndM | .strEnd => 1
  | .seq a b | .alt a b => a.size + b.size + 1
  | .star r => r.size + 1

/-- The backtracking matcher.  `reTry full fuel re pos k` attempts to match
`re` in `full` starting at `pos` and passes the end position of each candidate
match to the continuation `k`, in the preference order Python's engine uses;
the first `some` wins. -/
def reTry (full : List Nat) : Nat → RE → Nat → (Nat → Option Nat) → Option Nat
  | 0, _, _, _ => none
  | fuel + 1, re, pos, k =>
    match re with
    | .eps => k pos
    | .cls p =>
        match full.get? pos with
        | some c => if p c then k (pos + 1) else none
        | none => none
    | .seq a b => reTry full fuel a pos (fun p2 => reTry full fuel b p2 k)
    | .alt a b =>
        match reTry full fuel a pos k with
        | some e => some e
        | none => reTry full fuel b pos k
    | .star r =>
        match reTry full fuel r pos
            (fun p2 => if p2 == pos then none else reTry full fuel (.star r) p2 k) with
        | some e => some e
        | none => k pos
    | .wordB =>
        let before := match pos with
          | 0 => false
          | q + 1 => match full.get? q with
            | some c => pyIsWord c
            | none => false
        let after := match full.get? pos with
          | some c => pyIsWord c
          | none => false
        if before != after then k pos else none
    | .lineStartM =>
        let ok := match pos with
          | 0 => true
          | q + 1 => match full.get? q with
            | some c => c == 10
            | none => false
        if ok then k pos else none
    | .lineEndM =>
        let ok := match full.get? pos with
          | some c => c == 10
          | none => true
        if ok then k pos else none
    | .strEnd =>
        let ok := pos == full.length ||
          (pos + 1 == full.length && full.get? pos == some 10)
        if ok then k pos else none

/-- Fuel sufficient for the patterns in this development. -/
def reFuel (re : RE) (s : List Nat) : Nat :=
  (re.size + 2) * (s.length + 2) + 100

/-- `re.match`-style anchored attempt at position `pos`: the end position of
the match Python's backtracking engine produces, if any. -/
def reMatchEnd (re : RE) (s : List Nat) (pos : Nat) : Option Nat :=
  reTry s (reFuel re s) re pos some

/-- Scan for the leftmost match at or after `pos` (`re.search`). -/
def reSearchFrom (re : RE) (s : List Nat) (fuel pos : Nat) : Option (Nat × Nat) :=
  match fuel with
  | 0 => none
  | f + 1 =>
      match reMatchEnd re s pos with
      | some e => some (pos, e)
      | none => if pos < s.length then reSearchFrom re s f (pos + 1) else none

/-- `re.search`: the leftmost match, as (start, end) positions. -/
def reSearch (re : RE) (s : List Nat) : Option (Nat × Nat) :=
  reSearchFrom re s (s.length + 1) 0

/-- Scanning worker for `findall`-style counting: counts non-overlapping
matches left to right, advancing past each match (or by one on an empty
match), exactly as Python's scanner does. -/
def reCountFrom (re : RE) (s : List Nat) (fuel pos : Nat) : Nat :=
  match fuel with
  | 0 => 0
  | f + 1 =>
      match reMatchEnd re s pos with
      | some e =>
          if e ≤ pos then
            if pos < s.length then 1 + reCountFrom re s f (pos + 1) else 1
          else 1 + (if pos < s.length then reCountFrom re s f e else 0)
      | none => if pos < s.length then reCountFrom re s f (pos + 1) else 0

/-- `len(re.findall(pattern, s))`. -/
def reCount (re : RE) (s : List Nat) : Nat :=
  reCountFrom re s (s.length + 1) 0

/-- Scanning worker for `re.sub(pattern, '', s)`: copy unmatched characters,
skip matched spans. -/
def reSubEmptyFrom (re : RE) (s : List Nat) (fuel pos : Nat) : List Nat :=
  match fuel with
  | 0 => []
  | f + 1 =>
      if pos < s.length then
        match reMatchEnd re s pos with
        | some e =>
            if e ≤ pos then s.getD pos 0 :: reSubEmptyFrom re s f (pos + 1)
            else reSubEmptyFrom re s f e
        | none => s.getD pos 0 :: reSubEmptyFrom re s f (pos + 1)
      else []

/-- `re.sub(pattern, '', s)`. -/
def reSubEmpty (re : RE) (s : List Nat) : List Nat :=
  reSubEmptyFrom re s (s.length + 1) 0

/-- Scanning worker for `re.split`: pieces between non-overlapping matches.
`cur` is the reversed current piece. -/
def reSplitFrom (re : RE) (s : List Nat) (fuel pos : Nat) (cur : List Nat) :
    List (List Nat) :=
  match fuel with
  | 0 => [cur.reverse]
  | f + 1 =>
      if pos < s.length then
        match reMatchEnd re s pos with
        | some e =>
            if e ≤ pos then reSplitFrom re s f (pos + 1) (s.getD pos 0 :: cur)
            else cur.reverse :: reSplitFrom re s f e []
        | none => reSplitFrom re s f (pos + 1) (s.getD pos 0 :: cur)
      else [cur.reverse]

/-- `re.split(pattern, s)`. -/
def reSplit (re : RE) (s : List Nat) : List (List Nat) :=
  reSplitFrom re s (s.length + 1) 0 []

/-- `\d` as a regex. -/
def RE.digit : RE := .cls pyIsDigit

/-- `\s` as a regex. -/
def RE.space : RE := .cls pyIsSpace

/-- `.` as a regex (any character except newline). -/
def RE.dot : RE := .cls (fun c => c != 10)

/-! ## content_hasher.py -/

/-- A paragraph with its hash and metadata (`Paragraph` dataclass). -/
structure Paragraph where
  hash : PyStr
  content : PyStr
  preview : PyStr
  word_count : Nat
  position : Nat
deriving DecidableEq, Repr

/-- `Paragraph.is_empty`: zero words or whitespace-only content. -/
def Paragraph.isEmptyP (p : Paragraph) : Bool :=
  p.word_count == 0 || pyStrip p.content == []

/-- A section with header and paragraphs (`Section` dataclass). -/
structure Section where
  header : PyStr
  header_hash : PyStr
  paragraphs : List Paragraph
  position : Nat
deriving DecidableEq, Repr

/-- `ContentHasher._hash_text`: SHA-256 hex digest of the trimmed, lowercased
text (UTF-8 encoded). -/
def hashText (text : PyStr) : PyStr :=
  sha256Hex (utf8Encode (pyLower (pyStrip text)))

/-- `Section.content_hash`: the header hash if there are no paragraphs, else
SHA-256 of the header hash concatenated with all paragraph hashes. -/
def Section.contentHash (s : Section) : PyStr :=
  if s.paragraphs = [] then s.header_hash
  else sha256Hex (utf8Encode (s.header_hash ++ s.paragraphs.flatMap Paragraph.hash))

/-- Complete content signature for a meeting (`ContentSignature` dataclass). -/
structure ContentSignature where
  meeting_id : PyStr
  content_version : PyStr := pys "1.0"
  extracted_at : PyStr := []
  full_content_hash : PyStr := []
  sections : List Section := []
  total_words : Nat := 0
  total_paragraphs : Nat := 0
deriving DecidableEq, Repr

/-- Worker for whitespace collapapsing: `prevSpace` records whether the last
emitted character came from a whitespace run. -/
def collapseWsGo (s : PyStr) (prevSpace : Bool) : PyStr :=
  match s with
  | [] => []
  | c :: rest =>
      if pyIsSpace c then
        if prevSpace then collapseWsGo rest true
        else 32 :: collapseWsGo rest true
      else c :: collapseWsGo rest false

/-- `re.sub(r'\s+', ' ', s)`: collapse each whitespace run to one space. -/
def collapseWs (s : PyStr) : PyStr := collapseWsGo s false

/-- The zero-width code points removed by `_normalize_paragraph`
(U+200B, U+200C, U+200D, U+FEFF). -/
def isZeroWidth (c : Nat) : Bool :=
  c == 0x200b || c == 0x200c || c == 0x200d || c == 0xfeff

/-- `ContentHasher._normalize_paragraph`: strip, collapse whitespace runs to a
single space, remove zero-width characters. -/
def normalizeParagraph (text : PyStr) : PyStr :=
  (collapseWs (pyStrip text)).filter (fun c => !isZeroWidth c)

/-- `ContentHasher._create_paragraph`: hash, 50-character preview, whitespace
word count. -/
def createParagraph (text : PyStr) (position : Nat) : Paragraph :=
  { hash := hashText text
    content := text
    preview := if text.length > 50 then text.take 50 ++ pys "..." else text
    word_count := (pySplitWs text).length
    position := position }

/-- The paragraph separator `\n\n+` used by `extract_paragraphs`. -/
def reParaSep : RE := .seq (.lit 10) (RE.plus (.lit 10))

/-- Worker for `extract_paragraphs`: normalize each raw paragraph, keep the
non-empty ones, numbering kept paragraphs densely from `pos`. -/
def extractParagraphsGo (raw : List PyStr) (pos : Nat) : List Paragraph :=
  match raw with
  | [] => []
  | rp :: rest =>
      let pt := normalizeParagraph rp
      if pt ≠ [] then
        let p := createParagraph pt pos
        if !p.isEmptyP then p :: extractParagraphsGo rest (pos + 1)
        else extractParagraphsGo rest pos
      else extractParagraphsGo rest pos

/-- `ContentHasher.extract_paragraphs`. -/
def extractParagraphs (text : PyStr) : List Paragraph :=
  if pyStrip text = [] then []
  else extractParagraphsGo (reSplit reParaSep text) 0

/-- Does a (newline-free) line match `^[=-]+$`: non-empty and all `=` or `-`? -/
def isUnderline (s : PyStr) : Bool :=
  s ≠ [] && s.all (fun c => c == 61 || c == 45)

/-- The group of `re.match(r'^#+\s+(.+)$', l)` after `.strip()`, for a stripped
newline-free line: one or more `#`, at least one whitespace, a non-empty rest;
the returned group is the rest without its leading whitespace (backtracking
makes an all-whitespace rest yield a group that strips to empty). -/
def markdownHeaderGroup (l : PyStr) : Option PyStr :=
  let n := (l.takeWhile (fun c => c == 35)).length
  if 1 ≤ n then
    let rest := l.drop n
    if 2 ≤ rest.length ∧ pyIsSpace (rest.headD 0) then some (pyStrip rest)
    else none
  else none

/-- Does `u` match `(?:\s*:)?$`: empty, or whitespace then a final colon? -/
def boldTailOk (u : PyStr) : Bool :=
  u == [] || (u.getLast? == some 58 && u.dropLast.all pyIsSpace)

/-- Does `t` match `(?:\*\*|__)(?:\s*:)?$`? -/
def boldCloseOk (t : PyStr) : Bool :=
  ((pys "**").isPrefixOf t || (pys "__").isPrefixOf t) && boldTailOk (t.drop 2)

/-- Lazy search for the shortest non-empty `(.+?)` group such that the
remainder closes the bold marker; `accRev` is the reversed group so far. -/
def boldFindGroup (rest accRev : PyStr) : Option PyStr :=
  match rest with
  | [] => none
  | c :: tl =>
      let accRev' := c :: accRev
      if boldCloseOk tl then some accRev'.reverse
      else boldFindGroup tl accRev'

/-- The group of `re.match(r'^(?:\*\*|__)(.+?)(?:\*\*|__)(?:\s*:)?$', l)`. -/
def boldHeaderGroup (l : PyStr) : Option PyStr :=
  if (pys "**").isPrefixOf l || (pys "__").isPrefixOf l then
    boldFindGroup (l.drop 2) []
  else none

/-- Python `str.isupper` (ASCII model): at least one letter and no lowercase
letters. -/
def pyIsUpperStr (s : PyStr) : Bool :=
  s.any (fun c => (65 ≤ c && c ≤ 90) || (97 ≤ c && c ≤ 122)) &&
  s.all (fun c => !(97 ≤ c && c ≤ 122))

/-- `ContentHasher._extract_header`: markdown header, underlined header, bold
header, or an all-caps line of at most five words. -/
def extractHeader (line nextLine : PyStr) : Option PyStr :=
  let l := pyStrip line
  if l = [] then none
  else
    match markdownHeaderGroup l with
    | some g => some g
    | none =>
        if nextLine ≠ [] ∧ isUnderline (pyStrip nextLine) then some l
        else
          match boldHeaderGroup l with
          | some g => some (pyStrip g)
          | none =>
              if pyIsUpperStr l ∧ (pySplitWs l).length ≤ 5 then some l
              else none

/-- `ContentHasher._create_section`. -/
def createSection (header content : PyStr) (position : Nat) : Section :=
  let h := pyStrip header
  { header := h
    header_hash := hashText h
    paragraphs := extractParagraphs content
    position := position }

/-- Worker for `extract_sections`: walk the lines, accumulating the current
section's header and content lines; a line recognized as a (truthy) header
closes the current section (appended only if it has paragraphs, which also
advances the position), and a `[=-]+` underline right after a header line is
skipped. -/
def extractSectionsGo (fuel : Nat) (lines : List PyStr) (curHeader : PyStr)
    (curContent : List PyStr) (pos : Nat) : List Section :=
  match fuel with
  | 0 => []
  | f + 1 =>
    match lines with
    | [] =>
        if curContent ≠ [] then
          let sec := createSection curHeader (joinWith (pys "\n") curContent) pos
          if sec.paragraphs ≠ [] then [sec] else []
        else []
    | line :: rest =>
        match extractHeader line (rest.headD []) with
        | some h =>
            if h ≠ [] then
              let fin :=
                if curContent ≠ [] then
                  let sec := createSection curHeader (joinWith (pys "\n") curContent) pos
                  if sec.paragraphs ≠ [] then ([sec], pos + 1) else ([], pos)
                else ([], pos)
              if isUnderline (rest.headD []) then
                fin.1 ++ extractSectionsGo f rest.tail h [] fin.2
              else
                fin.1 ++ extractSectionsGo f rest h [] fin.2
            else extractSectionsGo f rest curHeader (curContent ++ [line]) pos
        | none => extractSectionsGo f rest curHeader (curContent ++ [line]) pos

/-- `'\r\n'` and `'\r'` normalized to `'\n'`. -/
def normalizeNewlines (s : PyStr) : PyStr :=
  pyReplace (pys "\r") (pys "\n") (pyReplace (pys "\r\n") (pys "\n") s)

/-- `ContentHasher.extract_sections`. -/
def extractSections (content : PyStr) : List Section :=
  if content = [] then []
  else
    let lines := splitOnChar 10 (normalizeNewlines content)
    extractSectionsGo (lines.length + 1) lines (pys "Introduction") [] 0

/-- `ContentHasher.create_content_signature`. -/
def createContentSignature (meeting_id content extracted_at : PyStr) : ContentSignature :=
  if content = [] then
    { meeting_id := meeting_id
      extracted_at := extracted_at
      full_content_hash := hashText [] }
  else
    let sections := extractSections content
    { meeting_id := meeting_id
      extracted_at := extracted_at
      full_content_hash := hashText content
      sections := sections
      total_words := (sections.map (fun s => (s.paragraphs.map Paragraph.word_count).sum)).sum
      total_paragraphs := (sections.map (fun s => s.paragraphs.length)).sum }

/-- `ContentHasher.calculate_similarity`: token-set Jaccard over lowercased
word sets, with the degenerate cases of the code. -/
def calcJaccardSim (t1 t2 : PyStr) : ℚ :=
  if t1 = [] ∨ t2 = [] then (if t1 ≠ t2 then 0 else 1)
  else
    let w1 := (pySplitWs (pyLower t1)).dedup
    let w2 := (pySplitWs (pyLower t2)).dedup
    if w1 = [] ∧ w2 = [] then 1
    else
      let inter := w1.filter (fun w => w2.contains w)
      let union := (w1 ++ w2).dedup
      if union = [] then 0 else (inter.length : ℚ) / union.length

/-! ## Python dictionaries

Insertion-ordered association lists with unique keys: assigning to an
existing key replaces its value in place, assigning a new key appends. -/

/-- `d[k] = v` on an insertion-ordered dict. -/
def dictInsert (m : List (PyStr × α)) (k : PyStr) (v : α) : List (PyStr × α) :=
  match m with
  | [] => [(k, v)]
  | (k', v') :: rest =>
      if k' = k then (k', v) :: rest
      else (k', v') :: dictInsert rest k v

/-- `d.get(k)` on an insertion-ordered dict. -/
def dlookup (m : List (PyStr × α)) (k : PyStr) : Option α :=
  match m with
  | [] => none
  | (k', v') :: rest => if k' = k then some v' else dlookup rest k

/-- `k in d`. -/
def dmem (m : List (PyStr × α)) (k : PyStr) : Bool :=
  (dlookup m k).isSome

/-! ## SequenceMatcher.ratio (difflib)

`DiffEngine._calculate_similarity` and the smart extractor's similarity
helpers use `difflib.SequenceMatcher(None, a, b).ratio()`.  With `junk=None`
the junk set is empty; the autojunk rule still removes "popular" elements
from the index when `len(b) >= 200`.  `ratio` is `2*M / (len(a)+len(b))`
where `M` is the total size of the matching blocks found by the recursive
longest-matching-block decomposition. -/

/-- `b2j`: for each element of `b`, the ascending list of its indices;
with autojunk, elements occurring more than `n // 100 + 1` times in a `b`
of length at least 200 are dropped from the index. -/
def smB2j (b : List Nat) : List (Nat × List Nat) :=
  let raw := (b.enum).foldl (fun m p =>
    match dlookupN m p.2 with
    | some js => dictInsertN m p.2 (js ++ [p.1])
    | none => dictInsertN m p.2 [p.1]) []
  if b.length ≥ 200 then
    let ntest := b.length / 100 + 1
    raw.filter (fun e => e.2.length ≤ ntest)
  else raw
where
  /-- dict insert keyed by a code point -/
  dictInsertN (m : List (Nat × List Nat)) (k : Nat) (v : List Nat) : List (Nat × List Nat) :=
    match m with
    | [] => [(k, v)]
    | (k', v') :: rest =>
        if k' = k then (k', v) :: rest
        else (k', v') :: dictInsertN rest k v
  /-- dict lookup keyed by a code point -/
  dlookupN (m : List (Nat × List Nat)) (k : Nat) : Option (List Nat) :=
    match m with
    | [] => none
    | (k', v') :: rest => if k' = k then some v' else dlookupN rest k

/-- Inner loop of `find_longest_match` for one position `i` of `a`: update the
`j2len` table and the best block over the `b`-indices of `a[i]` lying in
`[blo, bhi)` (ascending, so `break` at `bhi` is a `takeWhile`). -/
def smInner (i : Nat) (js : List Nat) (j2len : List (Nat × Nat))
    (best : Nat × Nat × Nat) : List (Nat × Nat) × (Nat × Nat × Nat) :=
  match js with
  | [] => (j2len, best)
  | j :: rest =>
      let k := (lookupJ j2len (j - 1)).getD 0 + 1
      let best' :=
        if k > best.2.2 then (i + 1 - k, j + 1 - k, k) else best
      let (m, b) := smInner i rest j2len best'
      (insertJ m j k, b)
where
  /-- lookup in the `j2len` table -/
  lookupJ (m : List (Nat × Nat)) (k : Nat) : Option Nat :=
    match m with
    | [] => none
    | (k', v') :: rest => if k' = k then some v' else lookupJ rest k
  /-- insert into the `j2len` table -/
  insertJ (m : List (Nat × Nat)) (k v : Nat) : List (Nat × Nat) :=
    match m with
    | [] => [(k, v)]
    | (k', v') :: rest =>
        if k' = k then (k', v) :: rest
        else (k', v') :: insertJ rest k v

/-- The `for i in range(alo, ahi)` loop of `find_longest_match`. -/
def smFlmGo (a : List Nat) (b2j : List (Nat × List Nat)) (blo bhi : Nat)
    (fuel i : Nat) (j2len : List (Nat × Nat)) (best : Nat × Nat × Nat) :
    Nat × Nat × Nat :=
  match fuel with
  | 0 => best
  | f + 1 =>
      let js := match b2j.find? (fun e => e.1 == a.getD i 0) with
        | some e => (e.2.takeWhile (fun j => j < bhi)).filter (fun j => blo ≤ j)
        | none => []
      let (j2len', best') := smInner i js j2len best
      smFlmGo a b2j blo bhi f (i + 1) j2len' best'

/-- `SequenceMatcher.find_longest_match(alo, ahi, blo, bhi)` (no junk, so the
junk-extension loops are no-ops; the equality extensions are subsumed by the
table sweep over a complete index, and with autojunk-removed popular elements
they can only lengthen the block, which the `a`/`b` lengths in this
development never trigger). -/
def smFlm (a : List Nat) (b2j : List (Nat × List Nat))
    (alo ahi blo bhi : Nat) : Nat × Nat × Nat :=
  smFlmGo a b2j blo bhi (ahi - alo) alo [] (alo, blo, 0)

/-- Total matched size over the recursive matching-block decomposition of
`get_matching_blocks` (merging adjacent blocks does not change the total). -/
def smMatchTotal (a : List Nat) (b2j : List (Nat × List Nat))
    (fuel alo ahi blo bhi : Nat) : Nat :=
  match fuel with
  | 0 => 0
  | f + 1 =>
      let (i, j, k) := smFlm a b2j alo ahi blo bhi
      if k = 0 then 0
      else
        k + (if alo < i ∧ blo < j then smMatchTotal a b2j f alo i blo j else 0)
          + (if i + k < ahi ∧ j + k < bhi then smMatchTotal a b2j f (i + k) ahi (j + k) bhi else 0)

/-- `difflib.SequenceMatcher(None, a, b).ratio()`. -/
def seqRatio (a b : List Nat) : ℚ :=
  let m := smMatchTotal a (smB2j b) (a.length + b.length + 1) 0 a.length 0 b.length
  if a.length + b.length = 0 then 1
  else 2 * (m : ℚ) / (a.length + b.length)

/-! ## diff_engine.py -/

/-- Types of changes detected (`ChangeType`). -/
inductive ChangeType where
  | added
  | removed
  | modified
  | moved
  | reordered
deriving DecidableEq, Repr

/-- A change to a paragraph (`ParagraphChange`). -/
structure ParagraphChange where
  change_type : ChangeType
  old_paragraph : Option Paragraph := none
  new_paragraph : Option Paragraph := none
  old_section : Option PyStr := none
  new_section : Option PyStr := none
  similarity_score : ℚ := 0
deriving DecidableEq, Repr

/-- Changes to a section (`SectionChange`). -/
structure SectionChange where
  change_type : ChangeType
  old_section : Option Section := none
  new_section : Option Section := none
  paragraph_changes : List ParagraphChange := []
deriving DecidableEq, Repr

/-- Summary statistics for a diff (`DiffSummary`). -/
structure DiffSummary where
  total_sections_added : Nat := 0
  total_sections_removed : Nat := 0
  total_sections_modified : Nat := 0
  total_paragraphs_added : Nat := 0
  total_paragraphs_removed : Nat := 0
  total_paragraphs_modified : Nat := 0
  total_paragraphs_moved : Nat := 0
  total_words_added : Nat := 0
  total_words_removed : Nat := 0
  similarity_percentage : ℚ := 0
deriving DecidableEq, Repr

/-- Complete diff between two meetings (`MeetingDiff`). -/
structure MeetingDiff where
  old_meeting_id : PyStr
  new_meeting_id : PyStr
  section_changes : List SectionChange
  moved_paragraphs : List ParagraphChange
  summary : DiffSummary
deriving DecidableEq, Repr

/-- The default `DiffEngine.similarity_threshold`. -/
def similarityThreshold : ℚ := 85 / 100

/-- `DiffEngine._calculate_similarity`: 1 if both texts are empty, 0 if
exactly one is, else the lowercased `SequenceMatcher` ratio. -/
def diffCalcSimilarity (t1 t2 : PyStr) : ℚ :=
  if t1 = [] ∨ t2 = [] then (if t1 ≠ t2 then 0 else 1)
  else seqRatio (pyLower t1) (pyLower t2)

/-- `DiffEngine._find_best_match`: best-scoring unclaimed candidate, strictly
improving scans keeping the first maximum; returned only when the best score
reaches the threshold and some candidate scored above zero. -/
def findBestMatch (p : Paragraph) (candidates : List Paragraph)
    (excludeHashes : List PyStr) : Option (Paragraph × ℚ) :=
  let best := candidates.foldl
    (fun (acc : Option Paragraph × ℚ) c =>
      if excludeHashes.contains c.hash then acc
      else
        let score := diffCalcSimilarity p.content c.content
        if score > acc.2 then (some c, score) else acc)
    (none, 0)
  match best.1 with
  | some bm => if best.2 ≥ similarityThreshold then some (bm, best.2) else none
  | none => none

/-- The paragraph-hash map `{p.hash: p for p in paragraphs}`. -/
def paraHashMap (ps : List Paragraph) : List (PyStr × Paragraph) :=
  ps.foldl (fun m p => dictInsert m p.hash p) []

/-- First pass of `_compare_paragraphs`: exact hash matches are claimed
silently; otherwise the best fuzzy match at or above the threshold becomes
MODIFIED (claiming the new paragraph's hash), else REMOVED. -/
def comparePassOne (newMap : List (PyStr × Paragraph)) (newParas : List Paragraph)
    (oldSection newSection : PyStr) :
    List Paragraph → List PyStr → List ParagraphChange × List PyStr
  | [], processed => ([], processed)
  | op :: rest, processed =>
      if dmem newMap op.hash then
        comparePassOne newMap newParas oldSection newSection rest (processed ++ [op.hash])
      else
        match findBestMatch op newParas processed with
        | some (np, score) =>
            if score ≥ similarityThreshold then
              let (cs, pr) := comparePassOne newMap newParas oldSection newSection rest
                (processed ++ [np.hash])
              ({ change_type := .modified
                 old_paragraph := some op
                 new_paragraph := some np
                 old_section := some oldSection
                 new_section := some newSection
                 similarity_score := score } :: cs, pr)
            else
              let (cs, pr) := comparePassOne newMap newParas oldSection newSection rest processed
              ({ change_type := .removed
                 old_paragraph := some op
                 old_section := some oldSection
                 new_section := some newSection } :: cs, pr)
        | none =>
            let (cs, pr) := comparePassOne newMap newParas oldSection newSection rest processed
            ({ change_type := .removed
               old_paragraph := some op
               old_section := some oldSection
               new_section := some newSection } :: cs, pr)

/-- `DiffEngine._compare_paragraphs`. -/
def compareParagraphs (oldParas newParas : List Paragraph)
    (oldSection newSection : PyStr) : List ParagraphChange :=
  let newMap := paraHashMap newParas
  let (changes, processed) := comparePassOne newMap newParas oldSection newSection oldParas []
  changes ++ (newParas.filter (fun np => !processed.contains np.hash)).map
    (fun np =>
      { change_type := .added
        new_paragraph := some np
        old_section := some oldSection
        new_section := some newSection })

/-- The section map `{s.header: s for s in sections}`. -/
def sectionMap (ss : List Section) : List (PyStr × Section) :=
  ss.foldl (fun m s => dictInsert m s.header s) []

/-- First loop of `_compare_sections`: walk the old sections, emitting
MODIFIED (only when paragraph changes exist) or REMOVED, and recording which
headers were found in the new map. -/
def compareSectionsGo (newMap : List (PyStr × Section)) :
    List Section → List PyStr → List SectionChange × List PyStr
  | [], processed => ([], processed)
  | os :: rest, processed =>
      match dlookup newMap os.header with
      | some ns =>
          let pcs := compareParagraphs os.paragraphs ns.paragraphs os.header ns.header
          let (cs, pr) := compareSectionsGo newMap rest (processed ++ [os.header])
          ((if pcs ≠ [] then
              [{ change_type := .modified
                 old_section := some os
                 new_section := some ns
                 paragraph_changes := pcs }]
            else []) ++ cs, pr)
      | none =>
          let (cs, pr) := compareSectionsGo newMap rest processed
          ({ change_type := .removed, old_section := some os } :: cs, pr)

/-- `DiffEngine._compare_sections`. -/
def compareSections (oldSections newSections : List Section) : List SectionChange :=
  let newMap := sectionMap newSections
  let (changes, processed) := compareSectionsGo newMap oldSections []
  changes ++ (newMap.filter (fun e => !processed.contains e.1)).map
    (fun e => { change_type := .added, new_section := some e.2 })

/-- The global paragraph-hash-to-section-header map of
`_find_moved_paragraphs` (later sections overwrite the value in place). -/
def paraSecMap (ss : List Section) : List (PyStr × PyStr) :=
  ss.foldl (fun m s => s.paragraphs.foldl (fun m' p => dictInsert m' p.hash s.header) m) []

/-- The nested object search of `_find_moved_paragraphs`: the first paragraph
with the given hash inside the last section with the given header that
contains the hash (the outer loop has no break, so later matching sections
overwrite). -/
def findParaIn (ss : List Section) (header : PyStr) (h : PyStr) : Option Paragraph :=
  ss.foldl (fun acc s =>
    if s.header = header then
      match s.paragraphs.find? (fun p => p.hash == h) with
      | some p => some p
      | none => acc
    else acc) none

/-- Iteration over the old hash-to-section entries in `_find_moved_paragraphs`. -/
def findMovedGo (oldSections newSections : List Section)
    (newMap : List (PyStr × PyStr)) : List (PyStr × PyStr) → List ParagraphChange
  | [] => []
  | (h, oldHeader) :: rest =>
      let tail := findMovedGo oldSections newSections newMap rest
      match dlookup newMap h with
      | some newHeader =>
          if oldHeader ≠ newHeader then
            match findParaIn oldSections oldHeader h, findParaIn newSections newHeader h with
            | some op, some np =>
                { change_type := .moved
                  old_paragraph := some op
                  new_paragraph := some np
                  old_section := some oldHeader
                  new_section := some newHeader
                  similarity_score := 1 } :: tail
            | _, _ => tail
          else tail
      | none => tail

/-- `DiffEngine._find_moved_paragraphs`. -/
def findMovedParagraphs (oldSections newSections : List Section) : List ParagraphChange :=
  findMovedGo oldSections newSections (paraSecMap newSections) (paraSecMap oldSections)

/-- Accumulate one section change into the running summary
(the body of the first loop of `_generate_summary`). -/
def summaryAddSection (s : DiffSummary) (change : SectionChange) : DiffSummary :=
  match change.change_type with
  | .added =>
      let s := { s with total_sections_added := s.total_sections_added + 1 }
      match change.new_section with
      | some ns =>
          { s with
            total_paragraphs_added := s.total_paragraphs_added + ns.paragraphs.length
            total_words_added :=
              s.total_words_added + (ns.paragraphs.map Paragraph.word_count).sum }
      | none => s
  | .removed =>
      let s := { s with total_sections_removed := s.total_sections_removed + 1 }
      match change.old_section with
      | some os =>
          { s with
            total_paragraphs_removed := s.total_paragraphs_removed + os.paragraphs.length
            total_words_removed :=
              s.total_words_removed + (os.paragraphs.map Paragraph.word_count).sum }
      | none => s
  | .modified =>
      let s := { s with total_sections_modified := s.total_sections_modified + 1 }
      change.paragraph_changes.foldl (fun s pc =>
        match pc.change_type with
        | .added =>
            let s := { s with total_paragraphs_added := s.total_paragraphs_added + 1 }
            match pc.new_paragraph with
            | some np => { s with total_words_added := s.total_words_added + np.word_count }
            | none => s
        | .removed =>
            let s := { s with total_paragraphs_removed := s.total_paragraphs_removed + 1 }
            match pc.old_paragraph with
            | some op => { s with total_words_removed := s.total_words_removed + op.word_count }
            | none => s
        | .modified =>
            let s := { s with total_paragraphs_modified := s.total_paragraphs_modified + 1 }
            match pc.old_paragraph, pc.new_paragraph with
            | some op, some np =>
                let wordDiff : Int := (np.word_count : Int) - op.word_count
                if wordDiff > 0 then
                  { s with total_words_added := s.total_words_added + wordDiff.toNat }
                else
                  { s with total_words_removed := s.total_words_removed + wordDiff.natAbs }
            | _, _ => s
        | _ => s) s
  | _ => s

/-- `DiffEngine._generate_summary`. -/
def generateSummary (sectionChanges : List SectionChange)
    (movedParagraphs : List ParagraphChange)
    (oldSig newSig : ContentSignature) : DiffSummary :=
  let s := sectionChanges.foldl summaryAddSection {}
  let s := { s with total_paragraphs_moved := movedParagraphs.length }
  if oldSig.total_words > 0 ∨ newSig.total_words > 0 then
    let unchanged : Int :=
      max 0 ((min oldSig.total_words newSig.total_words : Int)
        - s.total_words_removed - s.total_words_added)
    let total := max oldSig.total_words newSig.total_words
    { s with similarity_percentage :=
        if total > 0 then (unchanged : ℚ) / total * 100 else 0 }
  else s

/-- `DiffEngine.compare_meetings`. -/
def compareMeetings (oldSig newSig : ContentSignature) : MeetingDiff :=
  let sectionChanges := compareSections oldSig.sections newSig.sections
  let movedParagraphs := findMovedParagraphs oldSig.sections newSig.sections
  { old_meeting_id := oldSig.meeting_id
    new_meeting_id := newSig.meeting_id
    section_changes := sectionChanges
    moved_paragraphs := movedParagraphs
    summary := generateSummary sectionChanges movedParagraphs oldSig newSig }

/-! ## content_cache.py

The cache writes `asdict(signature)` as a JSON record under
`series_id / (meeting_date + "_content.json[.gz]")` and reads it back with
`_dict_to_signature`.  The JSON layer round-trips the dict structure for
these records (string keys and string/int values), so the store is modelled
as a map from `(series_id, meeting_date)` to the stored dict. -/

/-- The stored form of a `Paragraph` (the dict `asdict` produces). -/
structure ParaDict where
  hash : PyStr
  content : PyStr
  preview : PyStr
  word_count : Nat
  position : Nat
deriving DecidableEq, Repr

/-- The stored form of a `Section`. -/
structure SectionDict where
  header : PyStr
  header_hash : PyStr
  paragraphs : List ParaDict
  position : Nat
deriving DecidableEq, Repr

/-- The stored form of a `ContentSignature`. -/
structure SigDict where
  meeting_id : PyStr
  content_version : PyStr
  extracted_at : PyStr
  full_content_hash : PyStr
  sections : List SectionDict
  total_words : Nat
  total_paragraphs : Nat
deriving DecidableEq, Repr

/-- `dataclasses.asdict` on a signature (`_signature_to_dict`). -/
def signatureToDict (sig : ContentSignature) : SigDict :=
  { meeting_id := sig.meeting_id
    content_version := sig.content_version
    extracted_at := sig.extracted_at
    full_content_hash := sig.full_content_hash
    sections := sig.sections.map fun s =>
      { header := s.header
        header_hash := s.header_hash
        paragraphs := s.paragraphs.map fun p =>
          { hash := p.hash
            content := p.content
            preview := p.preview
            word_count := p.word_count
            position := p.position }
        position := s.position }
    total_words := sig.total_words
    total_paragraphs := sig.total_paragraphs }

/-- `MeetingContentCache._dict_to_signature`: rebuild paragraphs, sections and
the signature from the stored record. -/
def dictToSignature (data : SigDict) : ContentSignature :=
  { meeting_id := data.meeting_id
    content_version := data.content_version
    extracted_at := data.extracted_at
    full_content_hash := data.full_content_hash
    sections := data.sections.map fun sd =>
      { header := sd.header
        header_hash := sd.header_hash
        paragraphs := sd.paragraphs.map fun pd =>
          { hash := pd.hash
            content := pd.content
            preview := pd.preview
            word_count := pd.word_count
            position := pd.position }
        position := sd.position }
    total_words := data.total_words
    total_paragraphs := data.total_paragraphs }

/-- The cache contents: one stored record per `(series_id, meeting_date)`. -/
abbrev Cache := List ((PyStr × PyStr) × SigDict)

/-- `MeetingContentCache.store_content_signature` (I/O abstracted to the
record store; the write overwrites any previous record for the key). -/
def storeContentSignature (cache : Cache) (seriesId meetingDate : PyStr)
    (sig : ContentSignature) : Cache :=
  ((seriesId, meetingDate), signatureToDict sig) ::
    cache.filter (fun e => e.1 ≠ (seriesId, meetingDate))

/-- `MeetingContentCache.get_content_signature`. -/
def getContentSignature (cache : Cache) (seriesId meetingDate : PyStr) :
    Option ContentSignature :=
  (cache.find? (fun e => e.1 = (seriesId, meetingDate))).map
    (fun e => dictToSignature e.2)

/-! ## series_tracker.py -/

/-- The subset of `datetime` the tracker uses: calendar fields plus clock
time.  `strftime('%a')` needs the day of week, computed from the date. -/
structure PyDateTime where
  year : Nat
  month : Nat
  day : Nat
  hour : Nat
  minute : Nat
  second : Nat
deriving DecidableEq, Repr

/-- Day of week of a Gregorian date (Sakamoto's method; 0 = Sunday). -/
def dayOfWeek (y m d : Nat) : Nat :=
  let t := [0, 3, 2, 5, 0, 3, 5, 1, 4, 6, 2, 4]
  let y' := if m < 3 then y - 1 else y
  (y' + y' / 4 - y' / 100 + y' / 400 + t.getD (m - 1) 0 + d) % 7

/-- `strftime('%a')` for a date (English locale abbreviations). -/
def weekdayAbbrev (dt : PyDateTime) : PyStr :=
  match dayOfWeek dt.year dt.month dt.day with
  | 0 => pys "Sun"
  | 1 => pys "Mon"
  | 2 => pys "Tue"
  | 3 => pys "Wed"
  | 4 => pys "Thu"
  | 5 => pys "Fri"
  | _ => pys "Sat"

/-- The fingerprint time pattern: `strftime('%a').upper() + '-' + strftime('%H:%M')`. -/
def timePattern (dt : PyDateTime) : PyStr :=
  pyUpper (weekdayAbbrev dt) ++ pys "-" ++ pad2 dt.hour ++ pys ":" ++ pad2 dt.minute

/-- `datetime.isoformat()` (microseconds zero, no timezone). -/
def pyIsoformat (dt : PyDateTime) : PyStr :=
  pad4 dt.year ++ pys "-" ++ pad2 dt.month ++ pys "-" ++ pad2 dt.day ++ pys "T" ++
    pad2 dt.hour ++ pys ":" ++ pad2 dt.minute ++ pys ":" ++ pad2 dt.second

/-- Parse exactly `n` decimal digits. -/
def parseDigits (s : PyStr) (n : Nat) : Option (Nat × PyStr) :=
  let ds := s.take n
  if ds.length = n ∧ ds.all pyIsDigit then
    some (ds.foldl (fun acc c => acc * 10 + (c - 48)) 0, s.drop n)
  else none

/-- Expect a literal code point. -/
def parseChar (s : PyStr) (c : Nat) : Option PyStr :=
  match s with
  | d :: rest => if d = c then some rest else none
  | [] => none

/-- Parse an optional `±HH:MM` UTC offset suffix (the fields are unused by the
tracker, which reads local fields only). -/
def parseTzSuffix (s : PyStr) : Option Unit :=
  match s with
  | [] => some ()
  | c :: rest =>
      if c = 43 ∨ c = 45 then do
        let (_, r1) ← parseDigits rest 2
        let r2 ← parseChar r1 58
        let (_, r3) ← parseDigits r2 2
        if r3 = [] then some () else none
      else none

/-- `datetime.fromisoformat` on the formats the package exchanges:
`YYYY-MM-DD`, optionally followed by a one-character separator and
`HH:MM[:SS]`, optionally followed by `±HH:MM`.  Returns `none` (a
`ValueError` in Python) on anything else. -/
def pyFromIsoformat (s : PyStr) : Option PyDateTime := do
  let (y, r1) ← parseDigits s 4
  let r2 ← parseChar r1 45
  let (mo, r3) ← parseDigits r2 2
  let r4 ← parseChar r3 45
  let (d, r5) ← parseDigits r4 2
  if mo = 0 ∨ mo > 12 ∨ d = 0 ∨ d > 31 then none
  else
    match r5 with
    | [] => some ⟨y, mo, d, 0, 0, 0⟩
    | _ :: r6 => do
        let (h, r7) ← parseDigits r6 2
        let r8 ← parseChar r7 58
        let (mi, r9) ← parseDigits r8 2
        if h > 23 ∨ mi > 59 then none
        else
          match r9 with
          | [] => some ⟨y, mo, d, h, mi, 0⟩
          | 58 :: r10 => do
              let (sec, r11) ← parseDigits r10 2
              if sec > 59 then none
              else
                let _ ← parseTzSuffix r11
                some ⟨y, mo, d, h, mi, sec⟩
          | r9' => do
              let _ ← parseTzSuffix r9'
              some ⟨y, mo, d, h, mi, 0⟩

/-- A `start_time` metadata value: either an ISO string or a `datetime`. -/
inductive StartTime where
  | str (s : PyStr)
  | dt (d : PyDateTime)
deriving DecidableEq, Repr

/-- Meeting metadata: the dict fields the tracker reads.  A `none` field is an
absent key. -/
structure Metadata where
  title : Option PyStr := none
  organizer : Option PyStr := none
  start_time : Option StartTime := none
  attendees : Option (List PyStr) := none
deriving DecidableEq, Repr

/-- Python exceptions surfaced by the tracker. -/
inductive PyErr where
  /-- `AttributeError` (e.g. `.isoformat()` on a `str`, `.strftime` on `None`) -/
  | attributeError
  /-- `ValueError` (e.g. `datetime.fromisoformat` on a malformed string) -/
  | valueError
  /-- `KeyError` (subscripting a missing dict key) -/
  | keyError
deriving DecidableEq, Repr

/-- A registry entry: the dict stored for one `MeetingSeries`. -/
structure SeriesData where
  series_id : PyStr
  normalized_title : PyStr
  organizer : PyStr
  time_pattern : PyStr
  attendee_pattern : List PyStr
  first_seen : PyStr
  last_seen : PyStr
  meeting_count : Nat
  meetings : List PyStr
  confidence : ℚ
deriving DecidableEq, Repr

/-- The series registry: an insertion-ordered map from series id to its data. -/
abbrev Registry := List (PyStr × SeriesData)

/-- Fingerprint for matching meetings to series (`MeetingFingerprint`). -/
structure MeetingFingerprint where
  normalized_title : PyStr
  organizer : PyStr
  time_pattern : PyStr
  attendee_fingerprint : PyStr
  raw_title : PyStr
deriving DecidableEq, Repr

/-- The noise words removed from titles (`title_noise_words`). -/
def titleNoiseWords : List PyStr :=
  [pys "weekly", pys "daily", pys "monthly", pys "meeting", pys "sync", pys "standup",
   pys "demo", pys "review", pys "planning", pys "retrospective", pys "retro",
   pys "sprint", pys "scrum", pys "session", pys "call", pys "discussion"]

/-- Hyphen or slash, the character class of `-` and `/`. -/
def hyphenSlash : RE := .cls (fun c => c == 45 || c == 47)

/-- `\b \d{4} (hyphen-or-slash) \d{2} (hyphen-or-slash) \d{2} \b` — dates like 2024-07-16. -/
def patDateIso : RE :=
  .seq .wordB (.seq (RE.repN 4 .digit) (.seq hyphenSlash (.seq (RE.repN 2 .digit)
    (.seq hyphenSlash (.seq (RE.repN 2 .digit) .wordB)))))

/-- `\b \d{1,2} (hyphen-or-slash) \d{1,2} (hyphen-or-slash) \d{2,4} \b` — dates like 7/16/24. -/
def patDateSlash : RE :=
  .seq .wordB (.seq (RE.repRange 1 2 .digit) (.seq hyphenSlash
    (.seq (RE.repRange 1 2 .digit) (.seq hyphenSlash
      (.seq (RE.repRange 2 4 .digit) .wordB)))))

/-- `\bweek\s+\d+\b` — week numbers. -/
def patWeekNum : RE :=
  .seq .wordB (.seq (RE.str "week") (.seq (RE.plus .space) (.seq (RE.plus .digit) .wordB)))

/-- `\bw\d+\b` — W29, W30. -/
def patWNum : RE :=
  .seq .wordB (.seq (.lit 119) (.seq (RE.plus .digit) .wordB))

/-- `\bsprint\s+\d+\b` — sprint numbers. -/
def patSprintNum : RE :=
  .seq .wordB (.seq (RE.str "sprint") (.seq (RE.plus .space) (.seq (RE.plus .digit) .wordB)))

/-- `\b#\d+\b` — issue numbers. -/
def patIssueNum : RE :=
  .seq .wordB (.seq (.lit 35) (.seq (RE.plus .digit) .wordB))

/-- `\bv\d+\.\d+\b` — version numbers. -/
def patVersionNum : RE :=
  .seq .wordB (.seq (.lit 118) (.seq (RE.plus .digit) (.seq (.lit 46)
    (.seq (RE.plus .digit) .wordB))))

/-- `\b\d{1,2}:\d{2}\s*(?:am|pm)?\b` — times. -/
def patClockTime : RE :=
  .seq .wordB (.seq (RE.repRange 1 2 .digit) (.seq (.lit 58) (.seq (RE.repN 2 .digit)
    (.seq (.star .space) (.seq (RE.opt (.alt (RE.str "am") (RE.str "pm"))) .wordB)))))

/-- `title_cleanup_patterns`, in order. -/
def titleCleanupPatterns : List RE :=
  [patDateIso, patDateSlash, patWeekNum, patWNum, patSprintNum, patIssueNum,
   patVersionNum, patClockTime]

/-- `re.sub(r'[^\w\s]', '', s)`: drop characters that are neither word
characters nor whitespace. -/
def removeNonWordSpace (s : PyStr) : PyStr :=
  s.filter (fun c => pyIsWord c || pyIsSpace c)

/-- `MeetingSeriesTracker._normalize_title`: lowercase, strip date/number
patterns, drop noise words, drop punctuation, collapse whitespace, strip. -/
def normalizeTitle (title : PyStr) : PyStr :=
  if title = [] then []
  else
    let normalized := pyLower title
    let normalized := titleCleanupPatterns.foldl (fun s p => reSubEmpty p s) normalized
    let filteredWords := (pySplitWs normalized).filter
      (fun w => !titleNoiseWords.contains w)
    let normalized := joinWith (pys " ") filteredWords
    let normalized := removeNonWordSpace normalized
    pyStrip (collapseWs normalized)

/-- Lexicographic (code-point) comparison, Python string `<=`. -/
def lexLe : PyStr → PyStr → Bool
  | [], _ => true
  | _ :: _, [] => false
  | a :: s, b :: t => if a < b then true else if b < a then false else lexLe s t

/-- Insert into a sorted list after any equal elements (stable). -/
def insertSorted (x : PyStr) : List PyStr → List PyStr
  | [] => [x]
  | y :: r => if lexLe y x then y :: insertSorted x r else x :: y :: r

/-- Python `sorted` on strings: stable sort by code-point order. -/
def pySorted (l : List PyStr) : List PyStr :=
  l.foldl (fun acc x => insertSorted x acc) []

/-- `MeetingSeriesTracker._generate_attendee_fingerprint`: first 8 hex chars
of the MD5 of the sorted, lowercased, `|`-joined attendee list. -/
def generateAttendeeFingerprint (attendees : List PyStr) : PyStr :=
  if attendees = [] then []
  else
    let sorted := pySorted ((attendees.filter (fun e => e ≠ [])).map pyLower)
    (md5Hex (utf8Encode (joinWith (pys "|") sorted))).take 8

/-- `MeetingSeriesTracker._extract_attendee_pattern`. -/
def extractAttendeePattern (md : Metadata) : List PyStr :=
  pySorted (((md.attendees.getD []).filter (fun e => e ≠ [])).map pyLower)

/-- `MeetingSeriesTracker._generate_fingerprint`.  Raises `AttributeError`
when `start_time` is absent (`None.strftime`), `ValueError` when it is an
unparsable string. -/
def generateFingerprint (md : Metadata) : Except PyErr MeetingFingerprint := do
  let rawTitle := md.title.getD []
  let normalizedTitle := normalizeTitle rawTitle
  let organizer := md.organizer.getD []
  let dt ← match md.start_time with
    | none => .error .attributeError
    | some (.str s) =>
        match pyFromIsoformat (pyReplace (pys "Z") (pys "+00:00") s) with
        | some d => .ok d
        | none => .error .valueError
    | some (.dt d) => .ok d
  .ok { normalized_title := normalizedTitle
        organizer := organizer
        time_pattern := timePattern dt
        attendee_fingerprint := generateAttendeeFingerprint (md.attendees.getD [])
        raw_title := rawTitle }

/-- `MeetingSeriesTracker._calculate_title_similarity`: word-set Jaccard on
already-normalized titles, with the code's degenerate cases. -/
def calcTitleSimilarity (t1 t2 : PyStr) : ℚ :=
  if t1 = [] ∨ t2 = [] then (if t1 ≠ t2 then 0 else 1)
  else
    let w1 := (pySplitWs t1).dedup
    let w2 := (pySplitWs t2).dedup
    if w1 = [] ∧ w2 = [] then 1
    else
      let inter := w1.filter (fun w => w2.contains w)
      let union := (w1 ++ w2).dedup
      if union = [] then 0 else (inter.length : ℚ) / union.length

/-- `MeetingSeriesTracker._matches_series`: exact organizer, exact time
pattern, and title similarity at least 0.8. -/
def matchesSeries (fp : MeetingFingerprint) (sd : SeriesData) : Bool :=
  fp.organizer == sd.organizer &&
  fp.time_pattern == sd.time_pattern &&
  decide (calcTitleSimilarity fp.normalized_title sd.normalized_title ≥ 8 / 10)

/-- `MeetingSeriesTracker._add_meeting_to_series`: sets `last_seen` to
`meeting_metadata['start_time'].isoformat()`.  This is an `AttributeError`
when `start_time` is a string and a `KeyError` when the key is absent. -/
def addMeetingToSeries (reg : Registry) (sid : PyStr) (md : Metadata) :
    Except PyErr Registry :=
  match md.start_time with
  | none => .error .keyError
  | some (.str _) => .error .attributeError
  | some (.dt d) =>
      match dlookup reg sid with
      | some sd => .ok (dictInsert reg sid { sd with last_seen := pyIsoformat d })
      | none => .ok reg

/-- The registry scan of `identify_series`: first matching series wins and is
updated via `_add_meeting_to_series`. -/
def identifySeriesGo (md : Metadata) (fp : MeetingFingerprint) (reg : Registry) :
    Registry → Except PyErr (Option PyStr × Registry)
  | [] => .ok (none, reg)
  | (sid, sd) :: rest =>
      if matchesSeries fp sd then do
        let reg' ← addMeetingToSeries reg sid md
        .ok (some sid, reg')
      else identifySeriesGo md fp reg rest

/-- `MeetingSeriesTracker.identify_series`: fingerprint the meeting, return
the first registered series it matches (updating that series), else `None`. -/
def identifySeries (reg : Registry) (md : Metadata) :
    Except PyErr (Option PyStr × Registry) := do
  let fp ← generateFingerprint md
  identifySeriesGo md fp reg reg

/-- Truncate to `n` characters (`s[:n]`). -/
def pyTake (n : Nat) (s : PyStr) : PyStr := s.take n

/-- `MeetingSeriesTracker._generate_series_id`. -/
def generateSeriesId (fp : MeetingFingerprint) : PyStr :=
  let titlePart := if fp.normalized_title ≠ [] then pyTake 20 fp.normalized_title
    else pys "meeting"
  let titlePart := titlePart.map (fun c => if pyIsWord c then c else 95)
  let organizerPart :=
    if fp.organizer.contains 64 then (splitOnChar 64 fp.organizer).headD []
    else fp.organizer
  let organizerPart := pyTake 10 organizerPart
  let timePart := (pyLower fp.time_pattern).filter (fun c => c ≠ 58)
  let baseId := titlePart ++ pys "_" ++ organizerPart ++ pys "_" ++ timePart
  let fullString := fp.normalized_title ++ pys ":" ++ fp.organizer ++ pys ":" ++
    fp.time_pattern ++ pys ":" ++ fp.attendee_fingerprint
  let hashSuffix := (md5Hex (utf8Encode fullString)).take 6
  baseId ++ pys "_" ++ hashSuffix

/-- `MeetingSeriesTracker.create_new_series`: register and persist a new
series for this fingerprint.  `first_seen`/`last_seen` use the raw string
when `start_time` is a string, else `isoformat()`; a missing key is a
`KeyError`. -/
def createNewSeries (reg : Registry) (md : Metadata) :
    Except PyErr (PyStr × Registry) := do
  let fp ← generateFingerprint md
  let sid := generateSeriesId fp
  let seen ← match md.start_time with
    | none => .error .keyError
    | some (.str s) => .ok s
    | some (.dt d) => .ok (pyIsoformat d)
  let sd : SeriesData :=
    { series_id := sid
      normalized_title := fp.normalized_title
      organizer := fp.organizer
      time_pattern := fp.time_pattern
      attendee_pattern := extractAttendeePattern md
      first_seen := seen
      last_seen := seen
      meeting_count := 1
      meetings := []
      confidence := 1 }
  .ok (sid, dictInsert reg sid sd)

/-- `MeetingSeriesTracker.get_latest_meeting` over an abstract file store:
the last meeting reference of the series, if its file exists. -/
def getLatestMeeting (reg : Registry) (files : List (PyStr × PyStr))
    (sid : PyStr) : Option PyStr :=
  match dlookup reg sid with
  | none => none
  | some sd =>
      match sd.meetings.getLast? with
      | none => none
      | some latest => if dmem files latest then some latest else none

/-! ## document_classifier.py

Each scoring pattern is paired with the Python `len()` of its source string,
because `_score_patterns` weights a pattern by `len(pattern) / 100`.  The
patterns are matched against already-lowercased text, so `re.IGNORECASE` has
no effect to model. -/

/-- Types of documents found in meetings (`DocumentType`). -/
inductive DocumentType where
  | ephemeral
  | persistent
  | unknown
deriving DecidableEq, Repr

/-- `(?:notes|transcript|summary)`. -/
def altNTS : RE := .alt (RE.str "notes") (.alt (RE.str "transcript") (RE.str "summary"))

/-- `ephemeral_patterns`, each with the length of its Python source. -/
def ephemeralPatterns : List (RE × Nat) :=
  [ -- notes\s+by\s+gemini
    (.seq (RE.str "notes") (.seq (RE.plus .space) (.seq (RE.str "by")
      (.seq (RE.plus .space) (RE.str "gemini")))), 19),
    -- gemini\s+notes
    (.seq (RE.str "gemini") (.seq (RE.plus .space) (RE.str "notes")), 14),
    -- meeting\s+notes.*gemini
    (.seq (RE.str "meeting") (.seq (RE.plus .space) (.seq (RE.str "notes")
      (.seq (.star RE.dot) (RE.str "gemini")))), 23),
    -- auto.*generated.*notes
    (.seq (RE.str "auto") (.seq (.star RE.dot) (.seq (RE.str "generated")
      (.seq (.star RE.dot) (RE.str "notes")))), 22),
    -- transcript
    (RE.str "transcript", 10),
    -- meeting\s+transcript
    (.seq (RE.str "meeting") (.seq (RE.plus .space) (RE.str "transcript")), 20),
    -- chat\s+log
    (.seq (RE.str "chat") (.seq (RE.plus .space) (RE.str "log")), 10),
    -- meeting\s+chat
    (.seq (RE.str "meeting") (.seq (RE.plus .space) (RE.str "chat")), 14),
    -- recording
    (RE.str "recording", 9),
    -- meeting\s+recording
    (.seq (RE.str "meeting") (.seq (RE.plus .space) (RE.str "recording")), 19),
    -- \d{4} (hyphen-or-slash) \d{2} (hyphen-or-slash) \d{2} .* (?:notes|transcript|summary)
    (.seq (RE.repN 4 .digit) (.seq hyphenSlash (.seq (RE.repN 2 .digit)
      (.seq hyphenSlash (.seq (RE.repN 2 .digit) (.seq (.star RE.dot) altNTS))))), 53),
    -- (?:meeting|notes).*\d{2}:\d{2}
    (.seq (.alt (RE.str "meeting") (RE.str "notes")) (.seq (.star RE.dot)
      (.seq (RE.repN 2 .digit) (.seq (.lit 58) (RE.repN 2 .digit)))), 30),
    -- session\s+notes
    (.seq (RE.str "session") (.seq (RE.plus .space) (RE.str "notes")), 15),
    -- meeting\s+summary.*\d+
    (.seq (RE.str "meeting") (.seq (RE.plus .space) (.seq (RE.str "summary")
      (.seq (.star RE.dot) (RE.plus .digit)))), 22) ]

/-- `persistent_patterns`, each with the length of its Python source. -/
def persistentPatterns : List (RE × Nat) :=
  [ -- project.*(?:plan|doc|spec)
    (.seq (RE.str "project") (.seq (.star RE.dot)
      (.alt (RE.str "plan") (.alt (RE.str "doc") (RE.str "spec")))), 26),
    -- requirements.*doc
    (.seq (RE.str "requirements") (.seq (.star RE.dot) (RE.str "doc")), 17),
    -- specification
    (RE.str "specification", 13),
    -- design.*doc
    (.seq (RE.str "design") (.seq (.star RE.dot) (RE.str "doc")), 11),
    -- planning.*board
    (.seq (RE.str "planning") (.seq (.star RE.dot) (RE.str "board")), 15),
    -- sprint.*(?:board|backlog)
    (.seq (RE.str "sprint") (.seq (.star RE.dot)
      (.alt (RE.str "board") (RE.str "backlog"))), 25),
    -- backlog
    (RE.str "backlog", 7),
    -- roadmap
    (RE.str "roadmap", 7),
    -- timeline
    (RE.str "timeline", 8),
    -- shared.*doc
    (.seq (RE.str "shared") (.seq (.star RE.dot) (RE.str "doc")), 11),
    -- team.*doc
    (.seq (RE.str "team") (.seq (.star RE.dot) (RE.str "doc")), 9),
    -- project.*status
    (.seq (RE.str "project") (.seq (.star RE.dot) (RE.str "status")), 15),
    -- action.*items
    (.seq (RE.str "action") (.seq (.star RE.dot) (RE.str "items")), 13),
    -- decisions.*log
    (.seq (RE.str "decisions") (.seq (.star RE.dot) (RE.str "log")), 14) ]

/-- `ephemeral_content_indicators`. -/
def ephemeralContentIndicators : List PyStr :=
  [pys "transcript of meeting", pys "meeting started at", pys "meeting ended at",
   pys "participants joined", pys "gemini took notes", pys "auto-generated summary"]

/-- `persistent_content_indicators`. -/
def persistentContentIndicators : List PyStr :=
  [pys "last updated", pys "version history", pys "edit history",
   pys "contributors:", pys "document owner", pys "shared with"]

/-- `DocumentClassifier._score_patterns`: each matching pattern contributes
its source length over 100, times its match count. -/
def scorePatterns (text : PyStr) (patterns : List (RE × Nat)) : ℚ :=
  patterns.foldl (fun score p =>
    let mCount := reCount p.1 text
    if mCount > 0 then score + ((p.2 : ℚ) / 100) * mCount else score) 0

/-- `DocumentClassifier._score_content_indicators`: fraction of indicators
present as substrings. -/
def scoreContentIndicators (content : PyStr) (indicators : List PyStr) : ℚ :=
  let score := indicators.foldl
    (fun sc ind => if pyContains content (pyLower ind) then sc + 1 else sc) (0 : ℚ)
  if indicators ≠ [] then score / indicators.length else 0

/-- `DocumentClassifier._score_url_patterns`: positive for ephemeral hints,
negative for persistent ones. -/
def scoreUrlPatterns (url : PyStr) : ℚ :=
  if url = [] then 0
  else if pyContains url (pys "meet_tnfm_calendar") then 2
  else if pyContains url (pys "transcript") || pyContains url (pys "recording") then 3 / 2
  else if pyContains url (pys "edit") && !pyContains url (pys "sharing") then -1
  else if pyContains url (pys "view") && pyContains url (pys "usp=sharing") then -(1 / 2)
  else 0

/-- The classifier's metadata dict: the fields `_score_metadata` reads. -/
structure ClsMetadata where
  shared : Bool := false
  content : Option PyStr := none
deriving DecidableEq, Repr

/-- `DocumentClassifier._score_metadata`. -/
def scoreMetadata (metadata : ClsMetadata) : ℚ :=
  let score : ℚ := 0
  let score := if metadata.shared then score - 1 / 2 else score
  let contentLength := (metadata.content.getD []).length
  if contentLength > 5000 then score + 3 / 10 else score

/-- The ephemeral aggregate score of `classify_document`: title patterns at
full weight, content indicators at half weight, positive URL score at 0.3,
positive metadata score at 0.2. -/
def ephemeralScoreOf (title url content : PyStr) (metadata : ClsMetadata) : ℚ :=
  let titleLower := pyLower title
  let contentLower := if content ≠ [] then pyLower content else []
  let s := scorePatterns titleLower ephemeralPatterns
  let s := if content ≠ [] then
      s + scoreContentIndicators contentLower ephemeralContentIndicators * (1 / 2)
    else s
  let s := if url ≠ [] then
      let u := scoreUrlPatterns (pyLower url)
      if u ≠ 0 ∧ u > 0 then s + |u| * (3 / 10) else s
    else s
  let m := scoreMetadata metadata
  if m ≠ 0 ∧ m > 0 then s + |m| * (1 / 5) else s

/-- The persistent aggregate score of `classify_document`. -/
def persistentScoreOf (title url content : PyStr) (metadata : ClsMetadata) : ℚ :=
  let titleLower := pyLower title
  let contentLower := if content ≠ [] then pyLower content else []
  let s := scorePatterns titleLower persistentPatterns
  let s := if content ≠ [] then
      s + scoreContentIndicators contentLower persistentContentIndicators * (1 / 2)
    else s
  let s := if url ≠ [] then
      let u := scoreUrlPatterns (pyLower url)
      if u ≠ 0 ∧ ¬u > 0 then s + |u| * (3 / 10) else s
    else s
  let m := scoreMetadata metadata
  if m ≠ 0 ∧ ¬m > 0 then s + |m| * (1 / 5) else s

/-- `DocumentClassifier.classify_document`: zero total yields Unknown with
confidence 0; otherwise the higher aggregate wins (ties and the
greater-or-equal case go to Persistent), with confidence the winner's share
of the total, capped at 1. -/
def classifyDocument (title url content : PyStr) (metadata : ClsMetadata) :
    DocumentType × ℚ :=
  let ephemeralScore := ephemeralScoreOf title url content metadata
  let persistentScore := persistentScoreOf title url content metadata
  let totalScore := ephemeralScore + persistentScore
  if totalScore = 0 then (.unknown, 0)
  else if ephemeralScore > persistentScore then
    (.ephemeral, min (ephemeralScore / totalScore) 1)
  else
    (.persistent, min (persistentScore / totalScore) 1)

/-- Information about a processed document (`DocumentInfo`). -/
structure DocumentInfo where
  title : PyStr
  url : PyStr
  content : PyStr
  doc_type : DocumentType
  confidence : ℚ
  metadata : ClsMetadata
  index : Nat
deriving DecidableEq, Repr

/-- An input document dict for `classify_documents`: the keys it reads. -/
structure DocDict where
  title : Option PyStr := none
  url : Option PyStr := none
  doc_url : Option PyStr := none
  content : Option PyStr := none
  metadata : Option ClsMetadata := none
deriving DecidableEq, Repr

/-- Worker for `classify_documents`, carrying the enumeration index. -/
def classifyDocumentsGo (i : Nat) : List DocDict → List DocumentInfo
  | [] => []
  | doc :: rest =>
      let title := doc.title.getD (pys "Document " ++ natToStr (i + 1))
      let url := doc.url.getD (doc.doc_url.getD [])
      let content := doc.content.getD []
      let metadata := doc.metadata.getD {}
      let (docType, confidence) := classifyDocument title url content metadata
      { title := title
        url := url
        content := content
        doc_type := docType
        confidence := confidence
        metadata := metadata
        index := i } :: classifyDocumentsGo (i + 1) rest

/-- `DocumentClassifier.classify_documents`: classify in order, attaching
indices. -/
def classifyDocuments (documents : List DocDict) : List DocumentInfo :=
  classifyDocumentsGo 0 documents

/-! ## smart_extractor.py -/

/-- A section of content within a document (`ContentSection`). -/
structure ContentSection where
  title : PyStr
  content : PyStr
  level : Nat
  start_line : Nat
  end_line : Nat
deriving DecidableEq, Repr

/-- The change-summary dict attached to a filtered document, modelled with
the keys the extractor writes. -/
structure ChangeSummary where
  change_type : PyStr
  total_words : Nat
  new_sections : Option Nat := none
  reason : Option PyStr := none
  previous_version_words : Option Nat := none
deriving DecidableEq, Repr

/-- A document with only new/changed content (`FilteredDocument`). -/
structure FilteredDocument where
  title : PyStr
  original_url : PyStr
  filtered_content : PyStr
  change_summary : ChangeSummary
  doc_type : DocumentType
deriving DecidableEq, Repr

/-- Result of content filtering for a meeting (`FilteringResult`). -/
structure FilteringResult where
  has_new_content : Bool
  filtered_documents : List FilteredDocument
  content_reduction_percentage : ℚ
  original_word_count : Nat
  filtered_word_count : Nat
  series_id : Option PyStr
  previous_meeting_path : Option PyStr
deriving DecidableEq, Repr

/-- The extractor's similarity thresholds. -/
def sectionSimilarityThreshold : ℚ := 8 / 10

/-- `content_change_threshold`. -/
def contentChangeThreshold : ℚ := 3 / 10

/-- `min_new_content_words`. -/
def minNewContentWords : Nat := 10

/-- `SmartContentExtractor._calculate_title_similarity`: lowercased
`SequenceMatcher` ratio with the code's degenerate empty cases. -/
def smTitleSimilarity (t1 t2 : PyStr) : ℚ :=
  if t1 = [] ∨ t2 = [] then (if t1 ≠ t2 then 0 else 1)
  else seqRatio (pyLower t1) (pyLower t2)

/-- `SmartContentExtractor._calculate_content_similarity`: `SequenceMatcher`
ratio without lowercasing. -/
def smContentSimilarity (c1 c2 : PyStr) : ℚ :=
  if c1 = [] ∨ c2 = [] then (if c1 ≠ c2 then 0 else 1)
  else seqRatio c1 c2

/-- `re.match(r'^(#{1,6})\s+(.+)$', line)` on a stripped newline-free line:
the header level and title. -/
def smHeaderMatch (l : PyStr) : Option (Nat × PyStr) :=
  let n := (l.takeWhile (fun c => c == 35)).length
  if 1 ≤ n ∧ n ≤ 6 then
    let rest := l.drop n
    if 2 ≤ rest.length ∧ pyIsSpace (rest.headD 0) ∧ rest.dropWhile pyIsSpace ≠ [] then
      some (n, rest.dropWhile pyIsSpace)
    else none
  else none

/-- Worker for `_parse_content_sections`: walk the lines with their index,
closing the open section at each header line. -/
def parseSectionsGo (lines : List PyStr) (i : Nat) (cur : Option ContentSection)
    (totalLines : Nat) : List ContentSection :=
  match lines with
  | [] =>
      match cur with
      | some c => [{ c with end_line := totalLines - 1 }]
      | none => []
  | line :: rest =>
      match smHeaderMatch (pyStrip line) with
      | some (level, title) =>
          let closed := match cur with
            | some c => [{ c with end_line := i - 1 }]
            | none => []
          closed ++ parseSectionsGo rest (i + 1)
            (some { title := title, content := [], level := level,
                    start_line := i, end_line := i }) totalLines
      | none =>
          match cur with
          | some c =>
              parseSectionsGo rest (i + 1)
                (some { c with content :=
                  if c.content ≠ [] then c.content ++ 10 :: line else line }) totalLines
          | none => parseSectionsGo rest (i + 1) none totalLines

/-- `SmartContentExtractor._parse_content_sections`: markdown-header-delimited
sections; a non-blank document with no headers is one "Content" section. -/
def parseContentSections (content : PyStr) : List ContentSection :=
  let lines := splitOnChar 10 content
  let sections := parseSectionsGo lines 0 none lines.length
  if sections = [] ∧ pyStrip content ≠ [] then
    [{ title := pys "Content", content := content, level := 1,
       start_line := 0, end_line := lines.length - 1 }]
  else sections

/-- `SmartContentExtractor._count_sections`. -/
def countSections (content : PyStr) : Nat := (parseContentSections content).length

/-- `SmartContentExtractor._find_matching_section`: best previous section by
title similarity, strictly improving and strictly above the threshold. -/
def findMatchingSection (sec : ContentSection)
    (previous : List ContentSection) : Option ContentSection :=
  (previous.foldl (fun (acc : Option ContentSection × ℚ) prev =>
    let sim := smTitleSimilarity sec.title prev.title
    if sim > acc.2 ∧ sim > sectionSimilarityThreshold then (some prev, sim) else acc)
    (none, 0)).1

/-- `SmartContentExtractor._find_new_content_sections`: sections with no match
in the previous content, or whose content similarity dropped below
`1 - content_change_threshold`. -/
def findNewContentSections (currentContent previousContent : PyStr) :
    List ContentSection :=
  let currentSections := parseContentSections currentContent
  let previousSections := parseContentSections previousContent
  currentSections.filter fun cs =>
    match findMatchingSection cs previousSections with
    | none => true
    | some m => smContentSimilarity cs.content m.content < 1 - contentChangeThreshold

/-- `SmartContentExtractor._build_filtered_content`. -/
def buildFilteredContent (sections : List ContentSection) : PyStr :=
  let parts := sections.flatMap fun sec =>
    [List.replicate sec.level 35 ++ pys " " ++ sec.title] ++
    (if pyStrip sec.content ≠ [] then [pyStrip sec.content] else []) ++
    [[]]
  pyStrip (joinWith (pys "\n") parts)

/-- A per-document record re-parsed from a previous meeting file. -/
structure PrevDoc where
  title : PyStr
  url : PyStr
  content : PyStr
deriving DecidableEq, Repr

/-- `SmartContentExtractor._find_matching_previous_doc`: URL equality first,
else the best title similarity strictly above 0.7. -/
def findMatchingPreviousDoc (currentDoc : DocumentInfo)
    (previousDocs : List PrevDoc) : Option PrevDoc :=
  match previousDocs.find? (fun pd => pd.url == currentDoc.url) with
  | some pd => some pd
  | none =>
      (previousDocs.foldl (fun (acc : Option PrevDoc × ℚ) pd =>
        let sim := smTitleSimilarity currentDoc.title pd.title
        if sim > acc.2 ∧ sim > 7 / 10 then (some pd, sim) else acc)
        (none, 0)).1

/-- `SmartContentExtractor._create_ephemeral_filtered_doc`. -/
def createEphemeralFilteredDoc (d : DocumentInfo) : FilteredDocument :=
  { title := d.title
    original_url := d.url
    filtered_content := d.content
    change_summary :=
      { change_type := pys "ephemeral"
        total_words := (pySplitWs d.content).length
        reason := some (pys "Always new per meeting") }
    doc_type := d.doc_type }

/-- `SmartContentExtractor._create_unknown_filtered_doc`. -/
def createUnknownFilteredDoc (d : DocumentInfo) : FilteredDocument :=
  { title := d.title ++ pys " (Unknown Type)"
    original_url := d.url
    filtered_content := d.content
    change_summary :=
      { change_type := pys "unknown"
        total_words := (pySplitWs d.content).length
        reason := some (pys "Included due to uncertain classification") }
    doc_type := d.doc_type }

/-- `SmartContentExtractor._extract_persistent_doc_changes`. -/
def extractPersistentDocChanges (currentDoc : DocumentInfo)
    (previousDocs : List PrevDoc) : Option FilteredDocument :=
  match findMatchingPreviousDoc currentDoc previousDocs with
  | none =>
      some
        { title := currentDoc.title ++ pys " (New Document)"
          original_url := currentDoc.url
          filtered_content := currentDoc.content
          change_summary :=
            { change_type := pys "new_document"
              total_words := (pySplitWs currentDoc.content).length
              reason := some (pys "Document not found in previous meeting") }
          doc_type := currentDoc.doc_type }
  | some previousDoc =>
      let newSections := findNewContentSections currentDoc.content previousDoc.content
      if newSections = [] then none
      else
        let filteredContent := buildFilteredContent newSections
        if (pySplitWs filteredContent).length < minNewContentWords then none
        else
          some
            { title := currentDoc.title ++ pys " - New Content"
              original_url := currentDoc.url
              filtered_content := filteredContent
              change_summary :=
                { change_type := pys "updated_document"
                  total_words := (pySplitWs filteredContent).length
                  new_sections := some newSections.length
                  previous_version_words := some (pySplitWs previousDoc.content).length }
              doc_type := currentDoc.doc_type }

/-- The record `_load_meeting_file` returns (a failed read gives the empty
record, matching the `{}` of the error path under `.get`). -/
structure MeetingData where
  yaml_metadata : PyStr := []
  content : PyStr := []
  full_content : PyStr := []
deriving DecidableEq, Repr

/-- Index of the first occurrence of `sep` in `s`. -/
def findSubIdx (sep s : PyStr) : Option Nat :=
  match s with
  | [] => if sep = [] then some 0 else none
  | _ :: rest =>
      if sep.isPrefixOf s then some 0
      else (findSubIdx sep rest).map (· + 1)

/-- Python `str.split(sep, maxsplit)` for a non-empty separator. -/
def pySplitSepLimited (sep : PyStr) (maxsplit : Nat) (s : PyStr) : List PyStr :=
  match maxsplit with
  | 0 => [s]
  | ms + 1 =>
      match findSubIdx sep s with
      | none => [s]
      | some i => s.take i :: pySplitSepLimited sep ms (s.drop (i + sep.length))

/-- `SmartContentExtractor._load_meeting_file` over the abstract file store:
split YAML frontmatter on the first two `---` separators. -/
def loadMeetingFile (files : List (PyStr × PyStr)) (path : PyStr) : MeetingData :=
  match dlookup files path with
  | none => {}
  | some content =>
      let parts := pySplitSepLimited (pys "---") 2 content
      if parts.length ≥ 3 then
        { yaml_metadata := parts.getD 1 []
          content := parts.getD 2 []
          full_content := content }
      else
        { yaml_metadata := []
          content := content
          full_content := content }

/-- `^## Document \d+\s*$` under `re.MULTILINE`. -/
def reDocHeader : RE :=
  .seq .lineStartM (.seq (RE.str "## Document ") (.seq (RE.plus .digit)
    (.seq (.star .space) .lineEndM)))

/-- `https?://[^\s\)]+`. -/
def reHttpUrl : RE :=
  .seq (RE.str "http") (.seq (RE.opt (.lit 115)) (.seq (RE.str "://")
    (RE.plus (.cls (fun c => !pyIsSpace c && c != 41)))))

/-- Per-part worker of `_extract_documents_from_meeting`, numbering the parts
after the first from 1. -/
def extractDocsGo (i : Nat) : List PyStr → List PrevDoc
  | [] => []
  | part :: rest =>
      let lines := splitOnChar 10 (pyStrip part)
      let hasTitle := lines ≠ [] ∧ (pys "**Title:**").isPrefixOf (lines.headD [])
      let title := if hasTitle then pyStrip (pyReplace (pys "**Title:**") [] (lines.headD []))
        else pys "Document " ++ natToStr i
      let contentStart := if hasTitle then 1 else 0
      let url :=
        if lines.length > contentStart ∧ pyContains (lines.getD contentStart []) (pys "http") then
          match reSearch reHttpUrl (lines.getD contentStart []) with
          | some (a, b) => ((lines.getD contentStart []).drop a).take (b - a)
          | none => []
        else []
      let docContent := pyStrip (joinWith (pys "\n") (lines.drop contentStart))
      { title := title, url := url, content := docContent } :: extractDocsGo (i + 1) rest

/-- `SmartContentExtractor._extract_documents_from_meeting`: split the saved
meeting body on `## Document N` headers back into per-document records. -/
def extractDocumentsFromMeeting (meetingData : MeetingData) : List PrevDoc :=
  let content := meetingData.content
  if content = [] then []
  else
    let parts := reSplit reDocHeader content
    if parts.length ≤ 1 then
      [{ title := pys "Meeting Content", url := [], content := content }]
    else extractDocsGo 1 parts.tail

/-- `SmartContentExtractor._process_first_meeting`: every document is emitted
in full; no reduction. -/
def processFirstMeeting (documents : List DocDict) (seriesId : PyStr) :
    FilteringResult :=
  let classifiedDocs := classifyDocuments documents
  let totalWords := (classifiedDocs.map (fun d => (pySplitWs d.content).length)).sum
  { has_new_content := true
    filtered_documents := classifiedDocs.map fun d =>
      { title := d.title
        original_url := d.url
        filtered_content := d.content
        change_summary :=
          { change_type := pys "first_meeting"
            total_words := (pySplitWs d.content).length
            new_sections := some (countSections d.content) }
        doc_type := d.doc_type }
    content_reduction_percentage := 0
    original_word_count := totalWords
    filtered_word_count := totalWords
    series_id := some seriesId
    previous_meeting_path := none }

/-- The per-document loop of `_extract_new_content_vs_previous`, returning
(original words, filtered words, filtered documents). -/
def extractVsPreviousGo (previousDocs : List PrevDoc) :
    List DocumentInfo → Nat × Nat × List FilteredDocument
  | [] => (0, 0, [])
  | d :: rest =>
      let (owc, fwc, fds) := extractVsPreviousGo previousDocs rest
      let dw := (pySplitWs d.content).length
      match d.doc_type with
      | .ephemeral =>
          let fd := createEphemeralFilteredDoc d
          (owc + dw, fwc + (pySplitWs fd.filtered_content).length, fd :: fds)
      | .persistent =>
          match extractPersistentDocChanges d previousDocs with
          | some fd =>
              if pyStrip fd.filtered_content ≠ [] then
                (owc + dw, fwc + (pySplitWs fd.filtered_content).length, fd :: fds)
              else (owc + dw, fwc, fds)
          | none => (owc + dw, fwc, fds)
      | .unknown =>
          let fd := createUnknownFilteredDoc d
          (owc + dw, fwc + (pySplitWs fd.filtered_content).length, fd :: fds)

/-- `SmartContentExtractor._extract_new_content_vs_previous`. -/
def extractVsPrevious (files : List (PyStr × PyStr)) (documents : List DocDict)
    (seriesId previousMeetingPath : PyStr) : FilteringResult :=
  let previousMeeting := loadMeetingFile files previousMeetingPath
  let previousDocs := extractDocumentsFromMeeting previousMeeting
  let classifiedDocs := classifyDocuments documents
  let (owc, fwc, fds) := extractVsPreviousGo previousDocs classifiedDocs
  { has_new_content := fwc > 0
    filtered_documents := fds
    content_reduction_percentage :=
      if owc > 0 then (((owc : ℚ) - fwc) / owc) * 100 else 0
    original_word_count := owc
    filtered_word_count := fwc
    series_id := some seriesId
    previous_meeting_path := some previousMeetingPath }

/-- `SmartContentExtractor.extract_new_content_only`: resolve or create the
series, then either the first-meeting path (no prior occurrence) or the
diff-against-previous path.  Returns the result together with the updated
series registry. -/
def extractNewContentOnly (reg : Registry) (files : List (PyStr × PyStr))
    (md : Metadata) (documents : List DocDict) :
    Except PyErr (FilteringResult × Registry) := do
  let (sidOpt, reg') ← identifySeries reg md
  match sidOpt with
  | none => do
      let (sid, reg'') ← createNewSeries reg' md
      .ok (processFirstMeeting documents sid, reg'')
  | some sid =>
      match getLatestMeeting reg' files sid with
      | none => .ok (processFirstMeeting documents sid, reg')
      | some previousMeetingPath =>
          .ok (extractVsPrevious files documents sid previousMeetingPath, reg')

/-! ## Supporting lemmas -/

theorem pyIsSpace_pyLowerChar (c : Nat) : pyIsSpace (pyLowerChar c) = pyIsSpace c := by
  unfold pyLowerChar
  split
  · rename_i h
    have ha : pyIsSpace (c + 32) = false := by simp [pyIsSpace]; omega
    have hb : pyIsSpace c = false := by simp [pyIsSpace]; omega
    rw [ha, hb]
  · rfl

theorem dropWhile_pyLower (s : PyStr) :
    (pyLower s).dropWhile pyIsSpace = pyLower (s.dropWhile pyIsSpace) := by
  induction s with
  | nil => rfl
  | cons a t ih =>
      simp only [pyLower, List.map_cons, List.dropWhile_cons, pyIsSpace_pyLowerChar]
      split
      · exact ih
      · rfl

theorem pyLower_reverse (s : PyStr) : pyLower s.reverse = (pyLower s).reverse := by
  unfold pyLower
  exact List.map_reverse ..

theorem pyStrip_pyLower (s : PyStr) : pyStrip (pyLower s) = pyLower (pyStrip s) := by
  unfold pyStrip
  rw [dropWhile_pyLower, ← pyLower_reverse, dropWhile_pyLower, ← pyLower_reverse]

theorem pyLowerChar_idem (c : Nat) : pyLowerChar (pyLowerChar c) = pyLowerChar c := by
  unfold pyLowerChar
  split <;> (try split) <;> omega

theorem pyLower_idem (s : PyStr) : pyLower (pyLower s) = pyLower s := by
  induction s with
  | nil => rfl
  | cons a t ih => simp only [pyLower, List.map_cons] at *; rw [pyLowerChar_idem, ih]

theorem dropWhile_dropWhile (p : Nat → Bool) (l : List Nat) :
    List.dropWhile p (List.dropWhile p l) = List.dropWhile p l := by
  induction l with
  | nil => rfl
  | cons a t ih =>
      rw [List.dropWhile_cons]
      split
      · exact ih
      · rw [List.dropWhile_cons]; simp_all

theorem dropWhile_length_le (p : Nat → Bool) (l : List Nat) :
    (List.dropWhile p l).length ≤ l.length := by
  induction l with
  | nil => simp
  | cons a t ih =>
      rw [List.dropWhile_cons]
      split
      · exact Nat.le_succ_of_le ih
      · simp

theorem dropWhile_eq_self_of_prefix (p : Nat → Bool) {u t : List Nat}
    (hu : List.dropWhile p u = u) (ht : t <+: u) : List.dropWhile p t = t := by
  cases t with
  | nil => rfl
  | cons a t' =>
      cases u with
      | nil => simp at ht
      | cons b v =>
          have hab : a = b := by
            obtain ⟨r, hr⟩ := ht
            simpa using congrArg (fun l => l.headD 0) hr
          have hpb : p b = false := by
            by_contra hc
            rw [List.dropWhile_cons] at hu
            simp only [eq_true_of_ne_false (by simpa using hc), if_true] at hu
            have := dropWhile_length_le p v
            rw [hu] at this
            simp at this
          rw [List.dropWhile_cons, hab, hpb]
          simp

theorem pyStrip_idem (s : PyStr) : pyStrip (pyStrip s) = pyStrip s := by
  have hu : List.dropWhile pyIsSpace (List.dropWhile pyIsSpace s)
      = List.dropWhile pyIsSpace s := dropWhile_dropWhile ..
  show pyStrip (((s.dropWhile pyIsSpace).reverse.dropWhile pyIsSpace).reverse) = _
  have htrev : (((s.dropWhile pyIsSpace).reverse.dropWhile pyIsSpace).reverse).reverse
      = (s.dropWhile pyIsSpace).reverse.dropWhile pyIsSpace := by
    rw [List.reverse_reverse]
  have hpre : ((s.dropWhile pyIsSpace).reverse.dropWhile pyIsSpace).reverse
      <+: s.dropWhile pyIsSpace := by
    rw [← List.reverse_suffix, htrev]
    exact List.dropWhile_suffix _
  have h1 : List.dropWhile pyIsSpace
      (((s.dropWhile pyIsSpace).reverse.dropWhile pyIsSpace).reverse)
      = ((s.dropWhile pyIsSpace).reverse.dropWhile pyIsSpace).reverse :=
    dropWhile_eq_self_of_prefix pyIsSpace hu hpre
  unfold pyStrip
  rw [h1, htrev, dropWhile_dropWhile]

/-! ## The claims -/

/-- **C3** as stated is refuted here: `"a b"` and `"a  b"` differ only in
(internal) whitespace — their normalized-paragraph projections agree — yet
the full-content hashes of the signatures built from them differ, because
`_hash_text` only strips leading and trailing whitespace before hashing. -/
theorem c3_counterexample :
    normalizeParagraph (pys "a b") = normalizeParagraph (pys "a  b") ∧
    (createContentSignature (pys "m") (pys "a b") (pys "t")).full_content_hash ≠
      (createContentSignature (pys "m") (pys "a  b") (pys "t")).full_content_hash := by
  constructor
  · decide
  · decide

/-- **C3** (amended): for every text `T`, `hash(T) = hash(lowercase(trim(T)))`;
moreover every hash is insensitive to letter case and to leading/trailing
whitespace (`hash(lower(T)) = hash(T)` and `hash(trim(T)) = hash(T)`).
Internal-whitespace insensitivity holds only for paragraph hashes, which are
computed over `_normalize_paragraph`-collapsed text. -/
theorem c3_hash_normalization (T : PyStr) :
    hashText T = hashText (pyLower (pyStrip T)) ∧
    hashText (pyLower T) = hashText T ∧
    hashText (pyStrip T) = hashText T := by
  unfold hashText
  refine ⟨?_, ?_, ?_⟩
  · rw [pyStrip_pyLower, pyStrip_idem, pyLower_idem]
  · rw [pyStrip_pyLower, pyLower_idem]
  · rw [pyStrip_idem]

theorem signatureToDict_roundtrip (sig : ContentSignature) :
    dictToSignature (signatureToDict sig) = sig := by
  cases sig with
  | mk mid ver ext full sections tw tp =>
      simp only [signatureToDict, dictToSignature, List.map_map]
      congr 1
      induction sections with
      | nil => rfl
      | cons s rest ih =>
          simp only [List.map_cons, Function.comp, List.map_map] at *
          congr 1
          · cases s with
            | mk h hh ps pos =>
                simp only
                congr 1
                induction ps with
                | nil => rfl
                | cons p pr ihp =>
                    simp only [List.map_cons, Function.comp] at *
                    congr 1

/-- **C4**: storing a content signature and retrieving it under the same
`(series_id, meeting_date)` key reproduces the signature exactly, nested
section and paragraph order included. -/
theorem c4_store_then_get (cache : Cache) (seriesId meetingDate : PyStr)
    (sig : ContentSignature) :
    getContentSignature (storeContentSignature cache seriesId meetingDate sig)
      seriesId meetingDate = some sig := by
  unfold getContentSignature storeContentSignature
  rw [List.find?_cons_of_pos _ (by simp)]
  simp [signatureToDict_roundtrip]

/-- The registry entry for the C8 failing input: a series with organizer
`alice@example.com`, slot `TUE-09:00`, normalized title `budget`. -/
def c8SeriesData : SeriesData :=
  { series_id := pys "sid1"
    normalized_title := pys "budget"
    organizer := pys "alice@example.com"
    time_pattern := pys "TUE-09:00"
    attendee_pattern := []
    first_seen := pys "2024-07-09T09:00:00"
    last_seen := pys "2024-07-09T09:00:00"
    meeting_count := 1
    meetings := []
    confidence := 1 }

/-- The C8 failing input: metadata whose `start_time` is a valid ISO-8601
string, matching the registered series (2024-07-16 was a Tuesday). -/
def c8Metadata : Metadata :=
  { title := some (pys "Budget")
    organizer := some (pys "alice@example.com")
    start_time := some (.str (pys "2024-07-16T09:00:00"))
    attendees := some [pys "a@x"] }

/-- **C8**: refuted by the code — with a string `start_time` and a matching
registered series, `identify_series` raises `AttributeError`, because
`_add_meeting_to_series` calls `.isoformat()` on the raw metadata value,
which the rest of the tracker explicitly allows to be a string. -/
theorem c8_identify_series_raises :
    identifySeries [(pys "sid1", c8SeriesData)] c8Metadata = .error .attributeError := by
  with_unfolding_all rfl

theorem scorePatterns_nonneg (text : PyStr) (ps : List (RE × Nat)) :
    0 ≤ scorePatterns text ps := by
  unfold scorePatterns
  suffices h : ∀ (l : List (RE × Nat)) (q : ℚ), 0 ≤ q →
      0 ≤ l.foldl (fun score p =>
        let mCount := reCount p.1 text
        if mCount > 0 then score + ((p.2 : ℚ) / 100) * mCount else score) q by
    exact h ps 0 le_rfl
  intro l
  induction l with
  | nil => intro q hq; exact hq
  | cons p rest ih =>
      intro q hq
      simp only [List.foldl_cons]
      apply ih
      split
      · positivity
      · exact hq

theorem scoreContentIndicators_nonneg (content : PyStr) (inds : List PyStr) :
    0 ≤ scoreContentIndicators content inds := by
  unfold scoreContentIndicators
  have h : ∀ (l : List PyStr) (q : ℚ), 0 ≤ q →
      0 ≤ l.foldl (fun sc ind => if pyContains content (pyLower ind) then sc + 1 else sc) q := by
    intro l
    induction l with
    | nil => intro q hq; exact hq
    | cons p rest ih =>
        intro q hq
        simp only [List.foldl_cons]
        apply ih
        split
        · positivity
        · exact hq
  split
  · exact div_nonneg (h inds 0 le_rfl) (by positivity)
  · exact le_rfl

theorem addIf_nonneg (c : Prop) [Decidable c] {q x : ℚ} (hq : 0 ≤ q) (hx : 0 ≤ x) :
    0 ≤ if c then q + x else q := by
  split
  · linarith
  · exact hq

theorem ephemeralScoreOf_nonneg (title url content : PyStr) (metadata : ClsMetadata) :
    0 ≤ ephemeralScoreOf title url content metadata := by
  have hbase : 0 ≤ (if content ≠ [] then
      scorePatterns (pyLower title) ephemeralPatterns +
        scoreContentIndicators (pyLower content) ephemeralContentIndicators * (1 / 2)
    else scorePatterns (pyLower title) ephemeralPatterns) := by
    split
    · exact add_nonneg (scorePatterns_nonneg ..)
        (mul_nonneg (scoreContentIndicators_nonneg ..) (by norm_num))
    · exact scorePatterns_nonneg ..
  unfold ephemeralScoreOf
  dsimp only
  apply addIf_nonneg _ _ (by positivity)
  split
  · apply addIf_nonneg _ _ (by positivity)
    split at hbase <;> simp_all
  · split at hbase <;> simp_all

theorem persistentScoreOf_nonneg (title url content : PyStr) (metadata : ClsMetadata) :
    0 ≤ persistentScoreOf title url content metadata := by
  have hbase : 0 ≤ (if content ≠ [] then
      scorePatterns (pyLower title) persistentPatterns +
        scoreContentIndicators (pyLower content) persistentContentIndicators * (1 / 2)
    else scorePatterns (pyLower title) persistentPatterns) := by
    split
    · exact add_nonneg (scorePatterns_nonneg ..)
        (mul_nonneg (scoreContentIndicators_nonneg ..) (by norm_num))
    · exact scorePatterns_nonneg ..
  unfold persistentScoreOf
  dsimp only
  apply addIf_nonneg _ _ (by positivity)
  split
  · apply addIf_nonneg _ _ (by positivity)
    split at hbase <;> simp_all
  · split at hbase <;> simp_all

/-- The case analysis of `classify_document`, shared by C6 and C10. -/
theorem classifyDocument_cases (title url content : PyStr) (metadata : ClsMetadata) :
    (ephemeralScoreOf title url content metadata
        + persistentScoreOf title url content metadata = 0 →
      classifyDocument title url content metadata = (.unknown, 0)) ∧
    (ephemeralScoreOf title url content metadata
        > persistentScoreOf title url content metadata →
      classifyDocument title url content metadata =
        (.ephemeral, min (ephemeralScoreOf title url content metadata /
          (ephemeralScoreOf title url content metadata
            + persistentScoreOf title url content metadata)) 1)) ∧
    (ephemeralScoreOf title url content metadata
        + persistentScoreOf title url content metadata ≠ 0 →
      ¬ ephemeralScoreOf title url content metadata
        > persistentScoreOf title url content metadata →
      classifyDocument title url content metadata =
        (.persistent, min (persistentScoreOf title url content metadata /
          (ephemeralScoreOf title url content metadata
            + persistentScoreOf title url content metadata)) 1)) := by
  unfold classifyDocument
  refine ⟨fun h0 => ?_, fun hgt => ?_, fun h0 hle => ?_⟩
  · rw [if_pos h0]
  · have hp := persistentScoreOf_nonneg title url content metadata
    have h0 : ¬ (ephemeralScoreOf title url content metadata
        + persistentScoreOf title url content metadata = 0) := by
      intro hc
      linarith
    rw [if_neg h0, if_pos hgt]
  · rw [if_neg h0, if_neg hle]

/-- **C6**: the classifier accumulates non-negative ephemeral and persistent
aggregates (title patterns at full weight, content indicators at half weight,
URL markers at 0.3, metadata signals at 0.2, per `ephemeralScoreOf` and
`persistentScoreOf`); zero total yields `(Unknown, 0.0)`, and otherwise the
strictly higher aggregate wins with confidence winner ÷ total, which the code
caps at 1 and which is non-negative by construction. -/
theorem c6_classifier_scores (title url content : PyStr) (metadata : ClsMetadata) :
    0 ≤ ephemeralScoreOf title url content metadata ∧
    0 ≤ persistentScoreOf title url content metadata ∧
    (ephemeralScoreOf title url content metadata
        + persistentScoreOf title url content metadata = 0 →
      classifyDocument title url content metadata = (.unknown, 0)) ∧
    (ephemeralScoreOf title url content metadata
        > persistentScoreOf title url content metadata →
      classifyDocument title url content metadata =
        (.ephemeral, min (ephemeralScoreOf title url content metadata /
          (ephemeralScoreOf title url content metadata
            + persistentScoreOf title url content metadata)) 1)) ∧
    (persistentScoreOf title url content metadata
        > ephemeralScoreOf title url content metadata →
      classifyDocument title url content metadata =
        (.persistent, min (persistentScoreOf title url content metadata /
          (ephemeralScoreOf title url content metadata
            + persistentScoreOf title url content metadata)) 1)) ∧
    (0 ≤ (classifyDocument title url content metadata).2 ∧
      (classifyDocument title url content metadata).2 ≤ 1) := by
  obtain ⟨hzero, hgt, hle⟩ := classifyDocument_cases title url content metadata
  have he := ephemeralScoreOf_nonneg title url content metadata
  have hp := persistentScoreOf_nonneg title url content metadata
  refine ⟨he, hp, hzero, hgt, fun h => hle ?_ (by linarith), ?_⟩
  · intro hc
    linarith
  · by_cases h0 : ephemeralScoreOf title url content metadata
        + persistentScoreOf title url content metadata = 0
    · rw [hzero h0]; norm_num
    · have htpos : 0 < ephemeralScoreOf title url content metadata
          + persistentScoreOf title url content metadata := by
        rcases lt_or_eq_of_le (add_nonneg he hp) with h | h
        · exact h
        · exact absurd h.symm h0
      by_cases hg : ephemeralScoreOf title url content metadata
          > persistentScoreOf title url content metadata
      · rw [hgt hg]
        constructor
        · exact le_min (by positivity) (by norm_num)
        · exact min_le_right ..
      · rw [hle h0 hg]
        constructor
        · exact le_min (by positivity) (by norm_num)
        · exact min_le_right ..

/-- A concrete document title matching exactly the `transcript` ephemeral
pattern (score 10∕100) and no persistent pattern. -/
def c6Title : PyStr := pys "transcript"

theorem c6_witness :
    ephemeralScoreOf c6Title [] [] {} > persistentScoreOf c6Title [] [] {} ∧
    classifyDocument c6Title [] [] {} =
      (.ephemeral, min (ephemeralScoreOf c6Title [] [] {} /
        (ephemeralScoreOf c6Title [] [] {} + persistentScoreOf c6Title [] [] {})) 1) :=
  ⟨by with_unfolding_all decide,
   (c6_classifier_scores c6Title [] [] {}).2.2.2.1 (by with_unfolding_all decide)⟩

/-- Document content containing exactly one ephemeral content indicator
(`meeting started at`) and one persistent one (`last updated`): the aggregate
scores tie at 1∕12. -/
def c10Content : PyStr := pys "meeting started at last updated"

/-- **C10**: a non-Unknown classification always carries confidence in
[0.5, 1]; exactly equal non-zero aggregates classify as Persistent with
confidence exactly 0.5. -/
theorem c10_confidence_bounds (title url content : PyStr) (metadata : ClsMetadata) :
    ((classifyDocument title url content metadata).1 ≠ DocumentType.unknown →
      1 / 2 ≤ (classifyDocument title url content metadata).2 ∧
        (classifyDocument title url content metadata).2 ≤ 1) ∧
    (ephemeralScoreOf title url content metadata
        = persistentScoreOf title url content metadata →
      ephemeralScoreOf title url content metadata ≠ 0 →
      classifyDocument title url content metadata = (.persistent, 1 / 2)) := by
  obtain ⟨hzero, hgt, hle⟩ := classifyDocument_cases title url content metadata
  have he := ephemeralScoreOf_nonneg title url content metadata
  have hp := persistentScoreOf_nonneg title url content metadata
  constructor
  · intro hne
    by_cases h0 : ephemeralScoreOf title url content metadata
        + persistentScoreOf title url content metadata = 0
    · exact absurd (by rw [hzero h0]) hne
    · have htpos : 0 < ephemeralScoreOf title url content metadata
          + persistentScoreOf title url content metadata :=
        (add_nonneg he hp).lt_of_ne (Ne.symm h0)
      by_cases hg : ephemeralScoreOf title url content metadata
          > persistentScoreOf title url content metadata
      · rw [hgt hg]
        refine ⟨le_min ?_ (by norm_num), min_le_right ..⟩
        rw [le_div_iff₀ htpos]
        linarith
      · rw [hle h0 hg]
        push_neg at hg
        refine ⟨le_min ?_ (by norm_num), min_le_right ..⟩
        rw [le_div_iff₀ htpos]
        linarith
  · intro heq hne0
    have h0 : ephemeralScoreOf title url content metadata
        + persistentScoreOf title url content metadata ≠ 0 := by
      rw [← heq]
      intro hc
      exact hne0 (by linarith)
    have hg : ¬ ephemeralScoreOf title url content metadata
        > persistentScoreOf title url content metadata := by rw [heq]; exact lt_irrefl _
    rw [hle h0 hg]
    have : persistentScoreOf title url content metadata /
        (ephemeralScoreOf title url content metadata
          + persistentScoreOf title url content metadata) = 1 / 2 := by
      rw [← heq, ← two_mul]
      rw [div_eq_div_iff (by positivity) (by norm_num)]
      ring
    rw [this]
    norm_num

theorem c10_witness :
    ephemeralScoreOf [] [] c10Content {} = persistentScoreOf [] [] c10Content {} ∧
    ephemeralScoreOf [] [] c10Content {} ≠ 0 ∧
    classifyDocument [] [] c10Content {} = (.persistent, 1 / 2) :=
  ⟨by with_unfolding_all decide, by with_unfolding_all decide,
   (c10_confidence_bounds [] [] c10Content {}).2
     (by with_unfolding_all decide) (by with_unfolding_all decide)⟩

theorem addMeetingToSeries_dt_ok (reg : Registry) (sid : PyStr) (md : Metadata)
    (d : PyDateTime) (hdt : md.start_time = some (.dt d)) :
    ∃ reg', addMeetingToSeries reg sid md = .ok reg' := by
  unfold addMeetingToSeries
  rw [hdt]
  cases dlookup reg sid <;> exact ⟨_, rfl⟩

theorem matchesSeries_iff (fp : MeetingFingerprint) (sd : SeriesData) :
    matchesSeries fp sd = true ↔
      fp.organizer = sd.organizer ∧ fp.time_pattern = sd.time_pattern ∧
        8 / 10 ≤ calcTitleSimilarity fp.normalized_title sd.normalized_title := by
  simp [matchesSeries, ge_iff_le, and_assoc]

theorem identifySeriesGo_some_iff (md : Metadata) (fp : MeetingFingerprint)
    (reg : Registry) (d : PyDateTime) (hdt : md.start_time = some (.dt d)) :
    ∀ l : Registry,
      ((∃ sid reg', identifySeriesGo md fp reg l = .ok (some sid, reg')) ↔
        ∃ e ∈ l, matchesSeries fp e.2 = true) := by
  intro l
  induction l with
  | nil =>
      simp only [identifySeriesGo, List.not_mem_nil, false_and, exists_false, iff_false,
        not_exists]
      intro sid reg' h
      simp at h
  | cons e rest ih =>
      by_cases hm : matchesSeries fp e.2 = true
      · obtain ⟨reg', hreg'⟩ := addMeetingToSeries_dt_ok reg e.1 md d hdt
        constructor
        · intro _
          exact ⟨e, List.mem_cons_self .., hm⟩
        · intro _
          refine ⟨e.1, reg', ?_⟩
          simp only [identifySeriesGo, hm, if_true, hreg']
          rfl
      · constructor
        · intro hex
          simp only [identifySeriesGo, hm, if_false, Bool.false_eq_true] at hex
          obtain ⟨e', he', hm'⟩ := (ih).mp hex
          exact ⟨e', List.mem_cons_of_mem _ he', hm'⟩
        · intro ⟨e', he', hm'⟩
          rcases List.mem_cons.mp he' with h | h
          · exact absurd (h ▸ hm') hm
          · simp only [identifySeriesGo, hm, if_false, Bool.false_eq_true]
            exact ih.mpr ⟨e', h, hm'⟩

theorem identifySeriesGo_none (md : Metadata) (fp : MeetingFingerprint)
    (reg : Registry) :
    ∀ l : Registry, (∀ e ∈ l, matchesSeries fp e.2 = false) →
      identifySeriesGo md fp reg l = .ok (none, reg) := by
  intro l
  induction l with
  | nil => intro _; rfl
  | cons e rest ih =>
      intro hall
      have he := hall e (List.mem_cons_self ..)
      simp only [identifySeriesGo, he, Bool.false_eq_true, if_false]
      exact ih (fun e' h => hall e' (List.mem_cons_of_mem _ h))

theorem generateFingerprint_dt (md : Metadata) (d : PyDateTime)
    (hdt : md.start_time = some (.dt d)) :
    generateFingerprint md = .ok
      { normalized_title := normalizeTitle (md.title.getD [])
        organizer := md.organizer.getD []
        time_pattern := timePattern d
        attendee_fingerprint := generateAttendeeFingerprint (md.attendees.getD [])
        raw_title := md.title.getD [] } := by
  unfold generateFingerprint
  rw [hdt]
  rfl

/-- **C5**: with a `datetime` start time, `identify_series` returns some
existing series id exactly when some registered entry agrees exactly on
organizer, agrees exactly on the weekday-plus-clock-time pattern, and has
normalized-title word-set similarity at least 0.8; when no entry satisfies all
three it returns `None` and leaves the registry unchanged.  In particular an
entry differing only in organizer never produces a match. -/
theorem c5_identify_series_iff (reg : Registry) (md : Metadata) (d : PyDateTime)
    (hdt : md.start_time = some (.dt d)) :
    ((∃ sid reg', identifySeries reg md = .ok (some sid, reg')) ↔
      ∃ e ∈ reg, md.organizer.getD [] = e.2.organizer ∧
        timePattern d = e.2.time_pattern ∧
        8 / 10 ≤ calcTitleSimilarity (normalizeTitle (md.title.getD []))
          e.2.normalized_title) ∧
    ((¬ ∃ e ∈ reg, md.organizer.getD [] = e.2.organizer ∧
        timePattern d = e.2.time_pattern ∧
        8 / 10 ≤ calcTitleSimilarity (normalizeTitle (md.title.getD []))
          e.2.normalized_title) →
      identifySeries reg md = .ok (none, reg)) := by
  have hfp := generateFingerprint_dt md d hdt
  have hun : identifySeries reg md = identifySeriesGo md
      { normalized_title := normalizeTitle (md.title.getD [])
        organizer := md.organizer.getD []
        time_pattern := timePattern d
        attendee_fingerprint := generateAttendeeFingerprint (md.attendees.getD [])
        raw_title := md.title.getD [] } reg reg := by
    unfold identifySeries
    rw [hfp]
    rfl
  constructor
  · rw [hun, identifySeriesGo_some_iff md _ reg d hdt reg]
    constructor
    · intro ⟨e, he, hm⟩
      exact ⟨e, he, (matchesSeries_iff _ e.2).mp hm⟩
    · intro ⟨e, he, hm⟩
      exact ⟨e, he, (matchesSeries_iff _ e.2).mpr hm⟩
  · intro hno
    rw [hun]
    apply identifySeriesGo_none
    intro e he
    by_contra hc
    rw [Bool.not_eq_false] at hc
    exact hno ⟨e, he, (matchesSeries_iff _ e.2).mp hc⟩

/-- The C5 witness registry entry and metadata: the `budget` series matched by
a meeting with a `datetime` start time on Tuesday 09:00. -/
def c5Metadata : Metadata :=
  { title := some (pys "Budget")
    organizer := some (pys "alice@example.com")
    start_time := some (.dt ⟨2024, 7, 16, 9, 0, 0⟩)
    attendees := some [pys "a@x"] }

theorem c5_witness :
    c5Metadata.start_time = some (.dt ⟨2024, 7, 16, 9, 0, 0⟩) ∧
    (∃ e ∈ [(pys "sid1", c8SeriesData)],
      c5Metadata.organizer.getD [] = e.2.organizer ∧
      timePattern ⟨2024, 7, 16, 9, 0, 0⟩ = e.2.time_pattern ∧
      8 / 10 ≤ calcTitleSimilarity (normalizeTitle (c5Metadata.title.getD []))
        e.2.normalized_title) ∧
    (∃ sid reg', identifySeries [(pys "sid1", c8SeriesData)] c5Metadata
      = .ok (some sid, reg')) := by
  have hmem : ∃ e ∈ [(pys "sid1", c8SeriesData)],
      c5Metadata.organizer.getD [] = e.2.organizer ∧
      timePattern ⟨2024, 7, 16, 9, 0, 0⟩ = e.2.time_pattern ∧
      8 / 10 ≤ calcTitleSimilarity (normalizeTitle (c5Metadata.title.getD []))
        e.2.normalized_title := by
    refine ⟨(pys "sid1", c8SeriesData), List.mem_singleton_self .., ?_, ?_, ?_⟩
    · with_unfolding_all rfl
    · with_unfolding_all rfl
    · with_unfolding_all decide
  exact ⟨rfl, hmem,
    (c5_identify_series_iff [(pys "sid1", c8SeriesData)] c5Metadata
      ⟨2024, 7, 16, 9, 0, 0⟩ rfl).1.mpr hmem⟩

theorem extractParagraphsGo_pos :
    ∀ (raw : List PyStr) (pos j : Nat) (p : Paragraph),
      (extractParagraphsGo raw pos).get? j = some p → p.position = pos + j := by
  intro raw
  induction raw with
  | nil => intro pos j p hp; simp [extractParagraphsGo] at hp
  | cons rp rest ih =>
      intro pos j p hp
      rw [show extractParagraphsGo (rp :: rest) pos =
          (let pt := normalizeParagraph rp
           if pt ≠ [] then
             let q := createParagraph pt pos
             if !q.isEmptyP then q :: extractParagraphsGo rest (pos + 1)
             else extractParagraphsGo rest pos
           else extractParagraphsGo rest pos) from rfl] at hp
      dsimp only at hp
      by_cases h1 : normalizeParagraph rp = []
      · rw [if_neg (not_not_intro h1)] at hp
        exact ih pos j p hp
      · rw [if_pos h1] at hp
        by_cases h2 : (createParagraph (normalizeParagraph rp) pos).isEmptyP
        · rw [if_neg (by simp [h2])] at hp
          exact ih pos j p hp
        · rw [if_pos (by simp only [Bool.not_eq_true] at h2; simp [h2])] at hp
          cases j with
          | zero =>
              simp only [List.get?_cons_zero, Option.some_inj] at hp
              rw [← hp]
              simp [createParagraph]
          | succ jj =>
              simp only [List.get?_cons_succ] at hp
              rw [ih (pos + 1) jj p hp]
              omega

/-- Dense 0-based paragraph positions for `extract_paragraphs`. -/
theorem extractParagraphs_pos (text : PyStr) (j : Nat) (p : Paragraph)
    (hp : (extractParagraphs text).get? j = some p) : p.position = j := by
  unfold extractParagraphs at hp
  by_cases hs : pyStrip text = []
  · rw [if_pos hs] at hp
    simp at hp
  · rw [if_neg hs] at hp
    simpa using extractParagraphsGo_pos (reSplit reParaSep text) 0 j p hp

theorem extractSectionsGo_nil_eq (f : Nat) (ch : PyStr) (cc : List PyStr) (pos : Nat) :
    extractSectionsGo (f + 1) [] ch cc pos =
      (if cc ≠ [] then
        let sec := createSection ch (joinWith (pys "\n") cc) pos
        if sec.paragraphs ≠ [] then [sec] else []
      else []) := rfl

theorem extractSectionsGo_cons_eq (f : Nat) (line : PyStr) (rest : List PyStr)
    (ch : PyStr) (cc : List PyStr) (pos : Nat) :
    extractSectionsGo (f + 1) (line :: rest) ch cc pos =
      (match extractHeader line (rest.headD []) with
      | some h =>
          if h ≠ [] then
            let fin :=
              if cc ≠ [] then
                let sec := createSection ch (joinWith (pys "\n") cc) pos
                if sec.paragraphs ≠ [] then ([sec], pos + 1) else ([], pos)
              else ([], pos)
            if isUnderline (rest.headD []) then
              fin.1 ++ extractSectionsGo f rest.tail h [] fin.2
            else
              fin.1 ++ extractSectionsGo f rest h [] fin.2
          else extractSectionsGo f rest ch (cc ++ [line]) pos
      | none => extractSectionsGo f rest ch (cc ++ [line]) pos) := rfl

set_option linter.unnecessarySeqFocus false in
theorem extractSectionsGo_spec :
    ∀ (fuel : Nat) (lines : List PyStr) (ch : PyStr) (cc : List PyStr) (pos i : Nat)
      (s : Section), (extractSectionsGo fuel lines ch cc pos).get? i = some s →
      s.position = pos + i ∧ ∃ hd ct q, s = createSection hd ct q := by
  intro fuel
  induction fuel with
  | zero => intro lines ch cc pos i s hs; simp [extractSectionsGo] at hs
  | succ f ih =>
      intro lines ch cc pos i s hs
      cases lines with
      | nil =>
          rw [extractSectionsGo_nil_eq] at hs
          by_cases hcc : cc = []
          · rw [if_neg (not_not_intro hcc)] at hs
            simp at hs
          · rw [if_pos hcc] at hs
            try dsimp only at hs
            by_cases hp : (createSection ch (joinWith (pys "\n") cc) pos).paragraphs = []
            · rw [if_neg (not_not_intro hp)] at hs
              simp at hs
            · rw [if_pos hp] at hs
              cases i with
              | zero =>
                  simp only [List.get?_cons_zero, Option.some_inj] at hs
                  rw [← hs]
                  exact ⟨by simp [createSection], _, _, _, rfl⟩
              | succ ii => simp at hs
      | cons line rest =>
          rw [extractSectionsGo_cons_eq] at hs
          rcases hE : extractHeader line (rest.headD []) with _ | hd <;> rw [hE] at hs
          · exact ih rest ch (cc ++ [line]) pos i s hs
          · simp only at hs
            by_cases hne : hd = []
            · rw [if_neg (not_not_intro hne)] at hs
              exact ih rest ch (cc ++ [line]) pos i s hs
            · rw [if_pos hne] at hs
              try dsimp only at hs
              by_cases hcc : cc = []
              · rw [if_neg (not_not_intro hcc)] at hs
                by_cases hu : isUnderline (rest.headD []) <;>
                  [rw [if_pos hu] at hs; rw [if_neg hu] at hs] <;>
                  (try dsimp only at hs) <;> rw [List.nil_append] at hs <;>
                  exact ih _ _ _ _ _ _ hs
              · rw [if_pos hcc] at hs
                try dsimp only at hs
                by_cases hp : (createSection ch (joinWith (pys "\n") cc) pos).paragraphs = []
                · rw [if_neg (not_not_intro hp)] at hs
                  by_cases hu : isUnderline (rest.headD []) <;>
                    [rw [if_pos hu] at hs; rw [if_neg hu] at hs] <;>
                    try dsimp only at hs <;> rw [List.nil_append] at hs <;>
                    exact ih _ _ _ _ _ _ hs
                · rw [if_pos hp] at hs
                  by_cases hu : isUnderline (rest.headD []) <;>
                    [rw [if_pos hu] at hs; rw [if_neg hu] at hs] <;>
                    try dsimp only at hs <;> rw [List.singleton_append] at hs <;>
                    (cases i with
                     | zero =>
                         simp only [List.get?_cons_zero, Option.some_inj] at hs
                         rw [← hs]
                         exact ⟨by simp [createSection], _, _, _, rfl⟩
                     | succ ii =>
                         simp only [List.get?_cons_succ] at hs
                         obtain ⟨hpos, hshape⟩ := ih _ _ _ _ _ _ hs
                         exact ⟨by rw [hpos]; omega, hshape⟩)

/-- **C9**: `extract_sections` assigns positions 0, 1, 2, … in list order with
no gaps, and within every returned section `extract_paragraphs` has assigned
its paragraphs positions 0, 1, 2, … in list order with no gaps (empty
paragraphs being dropped before positions are assigned). -/
theorem c9_positions_dense (content : PyStr) (i : Nat) (s : Section)
    (hs : (extractSections content).get? i = some s) :
    s.position = i ∧
    ∀ (j : Nat) (p : Paragraph), s.paragraphs.get? j = some p → p.position = j := by
  unfold extractSections at hs
  by_cases hc : content = []
  · rw [if_pos hc] at hs
    simp at hs
  · rw [if_neg hc] at hs
    obtain ⟨hpos, hd, ct, q, hshape⟩ := extractSectionsGo_spec _ _ _ _ _ i s hs
    refine ⟨by simpa using hpos, ?_⟩
    intro j p hp
    rw [hshape] at hp
    exact extractParagraphs_pos ct j p hp

/-- A concrete document for C9: two sections, the second with two paragraphs. -/
def c9Content : PyStr := pys "# A\nalpha beta\n\n# B\ngamma\n\ndelta"

theorem c9_witness :
    ∃ s p, (extractSections c9Content).get? 1 = some s ∧
      s.paragraphs.get? 1 = some p ∧ s.position = 1 ∧ p.position = 1 := by
  have h1 : ((extractSections c9Content).get? 1).isSome = true := by
    with_unfolding_all decide
  obtain ⟨s, hs⟩ := Option.isSome_iff_exists.mp h1
  have h2 : ((extractSections c9Content).get? 1).map
      (fun s => (s.paragraphs.get? 1).isSome) = some true := by
    with_unfolding_all decide
  rw [hs] at h2
  simp only [Option.map_some', Option.some.injEq] at h2
  obtain ⟨p, hp⟩ := Option.isSome_iff_exists.mp h2
  obtain ⟨hpos, hpara⟩ := c9_positions_dense c9Content 1 s hs
  exact ⟨s, p, hs, hp, hpos, hpara 1 p hp⟩

theorem classifyDocumentsGo_content :
    ∀ (docs : List DocDict) (i : Nat),
      (classifyDocumentsGo i docs).map DocumentInfo.content =
        docs.map (fun d => d.content.getD []) := by
  intro docs
  induction docs with
  | nil => intro i; rfl
  | cons d rest ih =>
      intro i
      simp only [classifyDocumentsGo, List.map_cons, ih (i + 1)]

theorem processFirstMeeting_spec (documents : List DocDict) (seriesId : PyStr) :
    (processFirstMeeting documents seriesId).has_new_content = true ∧
    (processFirstMeeting documents seriesId).content_reduction_percentage = 0 ∧
    (processFirstMeeting documents seriesId).filtered_word_count =
      (processFirstMeeting documents seriesId).original_word_count ∧
    (processFirstMeeting documents seriesId).previous_meeting_path = none ∧
    (processFirstMeeting documents seriesId).filtered_documents.map
        FilteredDocument.filtered_content =
      documents.map (fun d => d.content.getD []) := by
  refine ⟨rfl, rfl, rfl, rfl, ?_⟩
  show (List.map _ (classifyDocuments documents)).map _ = _
  rw [List.map_map]
  exact classifyDocumentsGo_content documents 0

theorem identifySeries_ok_parts (reg : Registry) (md : Metadata)
    (x : Option PyStr × Registry) (hok : identifySeries reg md = .ok x) :
    ∃ st fp, md.start_time = some st ∧ generateFingerprint md = .ok fp := by
  unfold identifySeries at hok
  cases hfp : generateFingerprint md with
  | error e =>
      rw [hfp] at hok
      have himp : Except.error (α := Option PyStr × Registry) e = .ok x := hok
      cases himp
  | ok fp =>
      cases hst : md.start_time with
      | none =>
          unfold generateFingerprint at hfp
          rw [hst] at hfp
          have himp : Except.error (α := MeetingFingerprint) PyErr.attributeError
              = .ok fp := hfp
          cases himp
      | some st => exact ⟨st, fp, rfl, rfl⟩

theorem createNewSeries_ok (reg : Registry) (md : Metadata) (st : StartTime)
    (fp : MeetingFingerprint) (hst : md.start_time = some st)
    (hfp : generateFingerprint md = .ok fp) :
    ∃ sid reg2, createNewSeries reg md = .ok (sid, reg2) := by
  unfold createNewSeries
  rw [hfp, hst]
  cases st <;> exact ⟨_, _, rfl⟩

/-- **C7**: when the metadata resolves to a new series — `identify_series`
returns `None`, or returns a series with no retrievable previous meeting —
`extract_new_content_only` reports `has_new_content = True`, a content
reduction of 0 with `filtered_word_count = original_word_count`,
`previous_meeting_path = None`, and every input document's content emitted in
full, in order. -/
theorem c7_first_meeting (reg : Registry) (files : List (PyStr × PyStr))
    (md : Metadata) (documents : List DocDict) (sidOpt : Option PyStr)
    (regA : Registry) (res : FilteringResult) (reg2 : Registry)
    (hID : identifySeries reg md = .ok (sidOpt, regA))
    (hNoPrev : ∀ sid, sidOpt = some sid → getLatestMeeting regA files sid = none)
    (hRes : extractNewContentOnly reg files md documents = .ok (res, reg2)) :
    res.has_new_content = true ∧
    res.content_reduction_percentage = 0 ∧
    res.filtered_word_count = res.original_word_count ∧
    res.previous_meeting_path = none ∧
    res.filtered_documents.map FilteredDocument.filtered_content =
      documents.map (fun d => d.content.getD []) := by
  unfold extractNewContentOnly at hRes
  rw [hID] at hRes
  obtain ⟨st, fp, hst, hfp⟩ := identifySeries_ok_parts reg md (sidOpt, regA) hID
  cases sidOpt with
  | none =>
      obtain ⟨sidN, regN, hCNS⟩ := createNewSeries_ok regA md st fp hst hfp
      have hRes1 : (do
          let (sid, reg'') ← createNewSeries regA md
          Except.ok (processFirstMeeting documents sid, reg'')) = .ok (res, reg2) := hRes
      rw [hCNS] at hRes1
      have hRes2 : Except.ok (ε := PyErr)
          (processFirstMeeting documents sidN, regN) = .ok (res, reg2) := hRes1
      have hres : res = processFirstMeeting documents sidN := by
        cases hRes2
        rfl
      rw [hres]
      exact processFirstMeeting_spec documents sidN
  | some sid =>
      have hlat := hNoPrev sid rfl
      have hRes1 : (match getLatestMeeting regA files sid with
          | none => Except.ok (processFirstMeeting documents sid, regA)
          | some previousMeetingPath =>
              Except.ok (ε := PyErr)
                (extractVsPrevious files documents sid previousMeetingPath, regA))
          = .ok (res, reg2) := hRes
      rw [hlat] at hRes1
      have hRes2 : Except.ok (ε := PyErr)
          (processFirstMeeting documents sid, regA) = .ok (res, reg2) := hRes1
      have hres : res = processFirstMeeting documents sid := by
        cases hRes2
        rfl
      rw [hres]
      exact processFirstMeeting_spec documents sid

/-- The C7 witness metadata: a meeting with no registered series. -/
def c7Metadata : Metadata :=
  { title := some (pys "Budget")
    organizer := some (pys "alice@example.com")
    start_time := some (.str (pys "2024-07-16T09:00:00"))
    attendees := some [pys "a@x"] }

/-- The C7 witness documents: one transcript document. -/
def c7Docs : List DocDict :=
  [{ title := some (pys "transcript"), content := some (pys "hello world") }]

theorem c7_witness :
    identifySeries [] c7Metadata = .ok (none, []) ∧
    ∃ res reg2, extractNewContentOnly [] [] c7Metadata c7Docs = .ok (res, reg2) ∧
      res.has_new_content = true ∧
      res.content_reduction_percentage = 0 ∧
      res.filtered_word_count = res.original_word_count ∧
      res.previous_meeting_path = none ∧
      res.filtered_documents.map FilteredDocument.filtered_content =
        c7Docs.map (fun d => d.content.getD []) := by
  have hID : identifySeries [] c7Metadata = .ok (none, []) := by
    with_unfolding_all rfl
  have hOk : (extractNewContentOnly [] [] c7Metadata c7Docs).isOk = true := by
    with_unfolding_all decide
  refine ⟨hID, ?_⟩
  cases hRes : extractNewContentOnly [] [] c7Metadata c7Docs with
  | error e => rw [hRes] at hOk; simp [Except.isOk, Except.toBool] at hOk
  | ok pair =>
      obtain ⟨resV, regV⟩ := pair
      exact ⟨resV, regV, rfl,
        c7_first_meeting [] [] c7Metadata c7Docs none [] resV regV hID
          (fun sid h => by simp at h) hRes⟩

/-! ## Dictionary lemmas for the diff-engine claims -/

theorem mem_dictInsert {α : Type} (m : List (PyStr × α)) (k : PyStr) (v : α)
    (e : PyStr × α) (he : e ∈ dictInsert m k v) : e ∈ m ∨ e = (k, v) := by
  induction m with
  | nil =>
      unfold dictInsert at he
      exact Or.inr (List.mem_singleton.mp he)
  | cons kv rest ih =>
      unfold dictInsert at he
      by_cases hk : kv.1 = k
      · rw [if_pos hk] at he
        rcases List.mem_cons.mp he with h | h
        · exact Or.inr (by rw [h, hk])
        · exact Or.inl (List.mem_cons_of_mem _ h)
      · rw [if_neg hk] at he
        rcases List.mem_cons.mp he with h | h
        · exact Or.inl (List.mem_cons.mpr (Or.inl h))
        · rcases ih h with h2 | h2
          · exact Or.inl (List.mem_cons_of_mem _ h2)
          · exact Or.inr h2

theorem dlookup_mem {α : Type} (m : List (PyStr × α)) (k : PyStr) (v : α)
    (hl : dlookup m k = some v) : (k, v) ∈ m := by
  induction m with
  | nil => simp [dlookup] at hl
  | cons kv rest ih =>
      unfold dlookup at hl
      by_cases hk : kv.1 = k
      · rw [if_pos hk] at hl
        have : kv = (k, v) := by
          obtain ⟨k1, v1⟩ := kv
          simp only at hk
          simp only [Option.some_inj] at hl
          rw [hk, hl]
        exact this ▸ List.mem_cons_self ..
      · rw [if_neg hk] at hl
        exact List.mem_cons_of_mem _ (ih hl)

theorem dmem_iff_key_mem {α : Type} (m : List (PyStr × α)) (k : PyStr) :
    dmem m k = true ↔ k ∈ m.map Prod.fst := by
  induction m with
  | nil => simp [dmem, dlookup]
  | cons kv rest ih =>
      unfold dmem dlookup
      by_cases hk : kv.1 = k
      · simp [hk]
      · simp only [if_neg hk, List.map_cons, List.mem_cons]
        rw [← ih]
        simp [dmem, Ne.symm hk]

/-- The keys of a dict after an assignment. -/
theorem dictInsert_keys {α : Type} (m : List (PyStr × α)) (k : PyStr) (v : α) :
    (dictInsert m k v).map Prod.fst =
      if k ∈ m.map Prod.fst then m.map Prod.fst else m.map Prod.fst ++ [k] := by
  induction m with
  | nil => simp [dictInsert]
  | cons kv rest ih =>
      unfold dictInsert
      by_cases hk : kv.1 = k
      · simp [hk]
      · simp only [if_neg hk, List.map_cons, ih]
        by_cases hmem : k ∈ rest.map Prod.fst
        · simp [hmem, Ne.symm hk]
        · simp [hmem, Ne.symm hk]

/-- Key distinctness, the invariant of Python dicts. -/
def DKeys {α : Type} (m : List (PyStr × α)) : Prop := (m.map Prod.fst).Nodup

theorem dkeys_dictInsert {α : Type} (m : List (PyStr × α)) (k : PyStr) (v : α)
    (hm : DKeys m) : DKeys (dictInsert m k v) := by
  unfold DKeys
  rw [dictInsert_keys]
  split
  · exact hm
  · rename_i hnot
    simp only [List.nodup_append, List.nodup_cons, List.nodup_nil]
    exact ⟨hm, by simp, by simpa using hnot⟩

theorem dlookup_of_mem_dkeys {α : Type} (m : List (PyStr × α)) (k : PyStr) (v : α)
    (hm : DKeys m) (hmem : (k, v) ∈ m) : dlookup m k = some v := by
  induction m with
  | nil => simp at hmem
  | cons kv rest ih =>
      unfold dlookup
      rcases List.mem_cons.mp hmem with h | h
      · rw [← h]
        simp
      · by_cases hk : kv.1 = k
        · exfalso
          unfold DKeys at hm
          simp only [List.map_cons, List.nodup_cons] at hm
          exact hm.1 (hk ▸ (List.mem_map.mpr ⟨(k, v), h, rfl⟩))
        · rw [if_neg hk]
          unfold DKeys at hm
          simp only [List.map_cons, List.nodup_cons] at hm
          exact ih hm.2 h

/-- Entry source for a fold of assignments keyed and valued by the items. -/
theorem mem_foldl_dictInsert {α β : Type} (key : β → PyStr) (val : β → α) :
    ∀ (l : List β) (acc : List (PyStr × α)) (e : PyStr × α),
      e ∈ l.foldl (fun m x => dictInsert m (key x) (val x)) acc →
      e ∈ acc ∨ ∃ x ∈ l, e = (key x, val x) := by
  intro l
  induction l with
  | nil => intro acc e he; exact Or.inl he
  | cons x rest ih =>
      intro acc e he
      rcases ih (dictInsert acc (key x) (val x)) e he with h | h
      · rcases mem_dictInsert acc (key x) (val x) e h with h2 | h2
        · exact Or.inl h2
        · exact Or.inr ⟨x, List.mem_cons_self .., h2⟩
      · obtain ⟨y, hy, hey⟩ := h
        exact Or.inr ⟨y, List.mem_cons_of_mem _ hy, hey⟩

theorem dkeys_foldl_dictInsert {α β : Type} (key : β → PyStr) (val : β → α) :
    ∀ (l : List β) (acc : List (PyStr × α)), DKeys acc →
      DKeys (l.foldl (fun m x => dictInsert m (key x) (val x)) acc) := by
  intro l
  induction l with
  | nil => intro acc h; exact h
  | cons x rest ih =>
      intro acc h
      exact ih _ (dkeys_dictInsert _ _ _ h)

/-! ## C2: moved paragraphs -/

/-- The inner paragraph fold of `paraSecMap` for one section. -/
theorem paraSecMap_inner_src (hdr : PyStr) :
    ∀ (ps : List Paragraph) (acc : List (PyStr × PyStr)) (e : PyStr × PyStr),
      e ∈ ps.foldl (fun m' p => dictInsert m' p.hash hdr) acc →
      e ∈ acc ∨ (e.2 = hdr ∧ ∃ p ∈ ps, p.hash = e.1) := by
  intro ps
  induction ps with
  | nil => intro acc e he; exact Or.inl he
  | cons p rest ih =>
      intro acc e he
      rcases ih _ e he with h | h
      · rcases mem_dictInsert acc p.hash hdr e h with h2 | h2
        · exact Or.inl h2
        · exact Or.inr ⟨by rw [h2], p, List.mem_cons_self .., by rw [h2]⟩
      · obtain ⟨h2, q, hq, hqh⟩ := h
        exact Or.inr ⟨h2, q, List.mem_cons_of_mem _ hq, hqh⟩

theorem paraSecMap_inner_dkeys (hdr : PyStr) :
    ∀ (ps : List Paragraph) (acc : List (PyStr × PyStr)), DKeys acc →
      DKeys (ps.foldl (fun m' p => dictInsert m' p.hash hdr) acc) := by
  intro ps
  induction ps with
  | nil => intro acc h; exact h
  | cons p rest ih => intro acc h; exact ih _ (dkeys_dictInsert _ _ _ h)

/-- Any entry of the global hash-to-section map comes from a section that
really contains a paragraph with that hash under that header. -/
theorem paraSecMap_src :
    ∀ (ss : List Section) (acc : List (PyStr × PyStr)) (e : PyStr × PyStr),
      e ∈ ss.foldl (fun m s => s.paragraphs.foldl
        (fun m' p => dictInsert m' p.hash s.header) m) acc →
      e ∈ acc ∨ ∃ s ∈ ss, s.header = e.2 ∧ ∃ p ∈ s.paragraphs, p.hash = e.1 := by
  intro ss
  induction ss with
  | nil => intro acc e he; exact Or.inl he
  | cons s rest ih =>
      intro acc e he
      rcases ih _ e he with h | h
      · rcases paraSecMap_inner_src s.header s.paragraphs acc e h with h2 | h2
        · exact Or.inl h2
        · exact Or.inr ⟨s, List.mem_cons_self .., h2.1.symm, h2.2⟩
      · obtain ⟨t, ht, h2⟩ := h
        exact Or.inr ⟨t, List.mem_cons_of_mem _ ht, h2⟩

theorem paraSecMap_dkeys (ss : List Section) : DKeys (paraSecMap ss) := by
  unfold paraSecMap
  suffices h : ∀ (l : List Section) (acc : List (PyStr × PyStr)), DKeys acc →
      DKeys (l.foldl (fun m s => s.paragraphs.foldl
        (fun m' p => dictInsert m' p.hash s.header) m) acc) by
    exact h ss [] (by simp [DKeys])
  intro l
  induction l with
  | nil => intro acc hacc; exact hacc
  | cons s rest ih =>
      intro acc hacc
      exact ih _ (paraSecMap_inner_dkeys s.header s.paragraphs acc hacc)

/-- The object-search fold of `_find_moved_paragraphs` preserves the "found
paragraph carries the hash" property of its accumulator. -/
theorem findParaIn_inv (hdr h : PyStr) :
    ∀ (ss : List Section) (acc : Option Paragraph),
      (∀ q, acc = some q → q.hash = h) →
      ∀ q, (ss.foldl (fun acc s =>
          if s.header = hdr then
            match s.paragraphs.find? (fun p => p.hash == h) with
            | some p => some p
            | none => acc
          else acc) acc) = some q → q.hash = h := by
  intro ss
  induction ss with
  | nil => intro acc hacc q hq; exact hacc q hq
  | cons s rest ih =>
      intro acc hacc q hq
      refine ih _ ?_ q hq
      intro r hr
      dsimp only at hr
      by_cases hs : s.header = hdr
      · rw [if_pos hs] at hr
        cases hfind : s.paragraphs.find? (fun p => p.hash == h) with
        | none => rw [hfind] at hr; exact hacc r hr
        | some p =>
            rw [hfind] at hr
            have := List.find?_some hfind
            simp only [Option.some_inj] at hr
            rw [← hr]
            simpa using this
      · rw [if_neg hs] at hr
        exact hacc r hr

theorem findParaIn_isSome_mono (hdr h : PyStr) :
    ∀ (ss : List Section) (acc : Option Paragraph), acc.isSome = true →
      (ss.foldl (fun acc s =>
        if s.header = hdr then
          match s.paragraphs.find? (fun p => p.hash == h) with
          | some p => some p
          | none => acc
        else acc) acc).isSome = true := by
  intro ss
  induction ss with
  | nil => intro acc hacc; exact hacc
  | cons s rest ih =>
      intro acc hacc
      refine ih _ ?_
      dsimp only
      by_cases hs : s.header = hdr
      · rw [if_pos hs]
        cases hfind : s.paragraphs.find? (fun p => p.hash == h) with
        | none => exact hacc
        | some p => simp
      · rw [if_neg hs]; exact hacc

theorem findParaIn_isSome (hdr h : PyStr) :
    ∀ (ss : List Section) (acc : Option Paragraph),
      (∃ s ∈ ss, s.header = hdr ∧ ∃ p ∈ s.paragraphs, p.hash = h) →
      (ss.foldl (fun acc s =>
        if s.header = hdr then
          match s.paragraphs.find? (fun p => p.hash == h) with
          | some p => some p
          | none => acc
        else acc) acc).isSome = true := by
  intro ss
  induction ss with
  | nil => intro acc h2; simp at h2
  | cons s rest ih =>
      intro acc h2
      obtain ⟨t, ht, hthdr, p, hp, hph⟩ := h2
      rcases List.mem_cons.mp ht with h3 | h3
      · subst h3
        have hfind : (t.paragraphs.find? (fun p => p.hash == h)).isSome = true := by
          rw [List.find?_isSome]
          exact ⟨p, hp, by simpa using hph⟩
        rw [List.foldl_cons]
        apply findParaIn_isSome_mono hdr h rest
        dsimp only
        rw [if_pos hthdr]
        cases hf : t.paragraphs.find? (fun p => p.hash == h) with
        | none => rw [hf] at hfind; simp at hfind
        | some q => simp
      · exact ih _ ⟨t, h3, hthdr, p, hp, hph⟩

/-- `findParaIn` succeeds, with the right hash, whenever some section with the
header contains the hash. -/
theorem findParaIn_some (ss : List Section) (hdr h : PyStr)
    (hex : ∃ s ∈ ss, s.header = hdr ∧ ∃ p ∈ s.paragraphs, p.hash = h) :
    ∃ q, findParaIn ss hdr h = some q ∧ q.hash = h := by
  have h1 := findParaIn_isSome hdr h ss none hex
  obtain ⟨q, hq⟩ := Option.isSome_iff_exists.mp h1
  exact ⟨q, hq, findParaIn_inv hdr h ss none (by simp) q hq⟩

theorem findMovedGo_mem (oldSections newSections : List Section)
    (newMap : List (PyStr × PyStr)) :
    ∀ (entries : List (PyStr × PyStr)) (h oh nh : PyStr) (op np : Paragraph),
      (h, oh) ∈ entries → dlookup newMap h = some nh → oh ≠ nh →
      findParaIn oldSections oh h = some op →
      findParaIn newSections nh h = some np →
      { change_type := ChangeType.moved
        old_paragraph := some op
        new_paragraph := some np
        old_section := some oh
        new_section := some nh
        similarity_score := 1 : ParagraphChange }
        ∈ findMovedGo oldSections newSections newMap entries := by
  intro entries
  induction entries with
  | nil => intro h oh nh op np hmem; simp at hmem
  | cons e rest ih =>
      intro h oh nh op np hmem hlook hne hop hnp
      rcases List.mem_cons.mp hmem with h2 | h2
      · subst h2
        unfold findMovedGo
        rw [hlook]
        simp only
        rw [if_pos hne, hop, hnp]
        exact List.mem_cons_self ..
      · unfold findMovedGo
        obtain ⟨eh, ehdr⟩ := e
        have htail := ih h oh nh op np h2 hlook hne hop hnp
        cases dlookup newMap eh with
        | none => exact htail
        | some nh2 =>
            simp only
            split
            · cases findParaIn oldSections ehdr eh with
              | none => exact htail
              | some op2 =>
                  cases findParaIn newSections nh2 eh with
                  | none => exact htail
                  | some np2 => exact List.mem_cons_of_mem _ htail
            · exact htail

theorem summaryAddSection_moved (s : DiffSummary) (c : SectionChange) :
    (summaryAddSection s c).total_paragraphs_moved = s.total_paragraphs_moved := by
  unfold summaryAddSection
  cases c.change_type with
  | added => cases c.new_section <;> rfl
  | removed => cases c.old_section <;> rfl
  | modified =>
      simp only
      suffices hfold : ∀ (l : List ParagraphChange) (t : DiffSummary),
          (l.foldl (fun s pc =>
            match pc.change_type with
            | ChangeType.added =>
                let s := { s with total_paragraphs_added := s.total_paragraphs_added + 1 }
                match pc.new_paragraph with
                | some np => { s with total_words_added := s.total_words_added + np.word_count }
                | none => s
            | ChangeType.removed =>
                let s := { s with total_paragraphs_removed := s.total_paragraphs_removed + 1 }
                match pc.old_paragraph with
                | some op => { s with total_words_removed := s.total_words_removed + op.word_count }
                | none => s
            | ChangeType.modified =>
                let s := { s with total_paragraphs_modified := s.total_paragraphs_modified + 1 }
                match pc.old_paragraph, pc.new_paragraph with
                | some op, some np =>
                    let wordDiff : Int := (np.word_count : Int) - op.word_count
                    if wordDiff > 0 then
                      { s with total_words_added := s.total_words_added + wordDiff.toNat }
                    else
                      { s with total_words_removed := s.total_words_removed + wordDiff.natAbs }
                | _, _ => s
            | _ => s) t).total_paragraphs_moved = t.total_paragraphs_moved by
        exact hfold c.paragraph_changes _
      intro l
      induction l with
      | nil => intro t; rfl
      | cons pc rest ihl =>
          intro t
          rw [List.foldl_cons, ihl]
          cases pc.change_type with
          | added => cases pc.new_paragraph <;> rfl
          | removed => cases pc.old_paragraph <;> rfl
          | modified =>
              cases pc.old_paragraph with
              | none => cases pc.new_paragraph <;> rfl
              | some op =>
                  cases pc.new_paragraph with
                  | none => rfl
                  | some np =>
                      simp only
                      split <;> rfl
          | moved => rfl
          | reordered => rfl
  | moved => rfl
  | reordered => rfl

theorem generateSummary_moved (sc : List SectionChange) (mp : List ParagraphChange)
    (oldSig newSig : ContentSignature) :
    (generateSummary sc mp oldSig newSig).total_paragraphs_moved = mp.length := by
  unfold generateSummary
  have hfold : ∀ (l : List SectionChange) (t : DiffSummary),
      (l.foldl summaryAddSection t).total_paragraphs_moved = t.total_paragraphs_moved := by
    intro l
    induction l with
    | nil => intro t; rfl
    | cons c rest ihl =>
        intro t
        rw [List.foldl_cons, ihl, summaryAddSection_moved]
  dsimp only
  split <;> rfl

/-- **C2** (amended): every paragraph hash recorded under different section
headers by the two global hash-to-section maps yields a MOVED
`ParagraphChange` with `similarity_score` fixed at 1.0, and the number of
moved paragraphs is reported in `summary.total_paragraphs_moved` — but moved
paragraphs are *not* excluded from the paragraph-added and paragraph-removed
tallies of their origin and destination sections (see the counterexample). -/
theorem c2_moved_paragraphs (S T : ContentSignature) (h oh nh : PyStr)
    (hold : dlookup (paraSecMap S.sections) h = some oh)
    (hnew : dlookup (paraSecMap T.sections) h = some nh)
    (hne : oh ≠ nh) :
    (∃ pc ∈ (compareMeetings S T).moved_paragraphs,
      pc.change_type = ChangeType.moved ∧ pc.similarity_score = 1 ∧
      pc.old_section = some oh ∧ pc.new_section = some nh) ∧
    (compareMeetings S T).summary.total_paragraphs_moved =
      (compareMeetings S T).moved_paragraphs.length := by
  constructor
  · have hmemOld := dlookup_mem _ _ _ hold
    have hsrcOld : ∃ s ∈ S.sections, s.header = oh ∧ ∃ p ∈ s.paragraphs, p.hash = h := by
      rcases paraSecMap_src S.sections [] (h, oh) hmemOld with h2 | h2
      · simp at h2
      · exact h2
    have hmemNew := dlookup_mem _ _ _ hnew
    have hsrcNew : ∃ s ∈ T.sections, s.header = nh ∧ ∃ p ∈ s.paragraphs, p.hash = h := by
      rcases paraSecMap_src T.sections [] (h, nh) hmemNew with h2 | h2
      · simp at h2
      · exact h2
    obtain ⟨op, hop, _⟩ := findParaIn_some S.sections oh h hsrcOld
    obtain ⟨np, hnp, _⟩ := findParaIn_some T.sections nh h hsrcNew
    refine ⟨_, findMovedGo_mem S.sections T.sections (paraSecMap T.sections)
      (paraSecMap S.sections) h oh nh op np hmemOld hnew hne hop hnp,
      rfl, rfl, rfl, rfl⟩
  · exact generateSummary_moved ..

/-- The old side of the C2 concrete input: one section `A` holding the
paragraph `alpha beta gamma`. -/
def c2SigOld : ContentSignature :=
  createContentSignature (pys "m1") (pys "# A\nalpha beta gamma") (pys "t1")

/-- The new side of the C2 concrete input: the same paragraph, now under
section `B`. -/
def c2SigNew : ContentSignature :=
  createContentSignature (pys "m2") (pys "# B\nalpha beta gamma") (pys "t2")

/-- **C2** as stated is refuted here: the paragraph that moved from section
`A` to section `B` is reported MOVED (with similarity 1.0), yet it is still
counted once in `total_paragraphs_removed` (origin section `A` was removed)
and once in `total_paragraphs_added` (destination section `B` was added) —
the summary does not exclude moved paragraphs from those tallies. -/
theorem c2_counterexample :
    (compareMeetings c2SigOld c2SigNew).moved_paragraphs.length = 1 ∧
    (compareMeetings c2SigOld c2SigNew).summary.total_sections_removed = 1 ∧
    (compareMeetings c2SigOld c2SigNew).summary.total_sections_added = 1 ∧
    ¬ ((compareMeetings c2SigOld c2SigNew).summary.total_paragraphs_removed = 0 ∧
       (compareMeetings c2SigOld c2SigNew).summary.total_paragraphs_added = 0) ∧
    (compareMeetings c2SigOld c2SigNew).summary.total_paragraphs_removed = 1 ∧
    (compareMeetings c2SigOld c2SigNew).summary.total_paragraphs_added = 1 := by
  refine ⟨?_, ?_, ?_, ?_, ?_, ?_⟩ <;> with_unfolding_all decide

theorem c2_witness :
    dlookup (paraSecMap c2SigOld.sections) (hashText (pys "alpha beta gamma"))
      = some (pys "A") ∧
    dlookup (paraSecMap c2SigNew.sections) (hashText (pys "alpha beta gamma"))
      = some (pys "B") ∧
    (∃ pc ∈ (compareMeetings c2SigOld c2SigNew).moved_paragraphs,
      pc.change_type = ChangeType.moved ∧ pc.similarity_score = 1 ∧
      pc.old_section = some (pys "A") ∧ pc.new_section = some (pys "B")) := by
  have h1 : dlookup (paraSecMap c2SigOld.sections) (hashText (pys "alpha beta gamma"))
      = some (pys "A") := by with_unfolding_all decide
  have h2 : dlookup (paraSecMap c2SigNew.sections) (hashText (pys "alpha beta gamma"))
      = some (pys "B") := by with_unfolding_all decide
  exact ⟨h1, h2,
    (c2_moved_paragraphs c2SigOld c2SigNew (hashText (pys "alpha beta gamma"))
      (pys "A") (pys "B") h1 h2 (by decide)).1⟩

/-! ## C1: comparing a signature with itself -/

theorem key_mem_dictInsert {α : Type} (m : List (PyStr × α)) (k k2 : PyStr) (v : α)
    (h : k ∈ m.map Prod.fst) : k ∈ (dictInsert m k2 v).map Prod.fst := by
  rw [dictInsert_keys]
  split
  · exact h
  · exact List.mem_append_left _ h

theorem key_self_dictInsert {α : Type} (m : List (PyStr × α)) (k : PyStr) (v : α) :
    k ∈ (dictInsert m k v).map Prod.fst := by
  rw [dictInsert_keys]
  by_cases h : k ∈ m.map Prod.fst
  · rw [if_pos h]; exact h
  · rw [if_neg h]; exact List.mem_append_right _ (List.mem_singleton_self _)

theorem key_mem_foldl_dictInsert {α β : Type} (key : β → PyStr) (val : β → α) :
    ∀ (l : List β) (acc : List (PyStr × α)) (k : PyStr), k ∈ acc.map Prod.fst →
      k ∈ (l.foldl (fun m x => dictInsert m (key x) (val x)) acc).map Prod.fst := by
  intro l
  induction l with
  | nil => intro acc k h; exact h
  | cons x rest ih =>
      intro acc k h
      exact ih _ k (key_mem_dictInsert _ _ _ _ h)

theorem key_of_mem_foldl_dictInsert {α β : Type} (key : β → PyStr) (val : β → α) :
    ∀ (l : List β) (acc : List (PyStr × α)) (x : β), x ∈ l →
      key x ∈ (l.foldl (fun m y => dictInsert m (key y) (val y)) acc).map Prod.fst := by
  intro l
  induction l with
  | nil => intro acc x hx; simp at hx
  | cons y rest ih =>
      intro acc x hx
      rcases List.mem_cons.mp hx with h | h
      · subst h
        exact key_mem_foldl_dictInsert key val rest _ _ (key_self_dictInsert _ _ _)
      · exact ih _ x h

theorem dlookup_isSome_of_key_mem {α : Type} (m : List (PyStr × α)) (k : PyStr)
    (h : k ∈ m.map Prod.fst) : (dlookup m k).isSome = true :=
  (dmem_iff_key_mem m k).mpr h

/-- With pairwise-distinct headers, the section map of `_compare_sections`
sends each header back to its own section. -/
theorem sectionMap_lookup_self (ss : List Section)
    (hnd : (ss.map Section.header).Nodup) (os : Section) (hos : os ∈ ss) :
    dlookup (sectionMap ss) os.header = some os := by
  have hkey : os.header ∈ (sectionMap ss).map Prod.fst :=
    key_of_mem_foldl_dictInsert Section.header (fun s => s) ss [] os hos
  obtain ⟨v, hv⟩ := Option.isSome_iff_exists.mp (dlookup_isSome_of_key_mem _ _ hkey)
  have hmem := dlookup_mem _ _ _ hv
  rcases mem_foldl_dictInsert Section.header (fun s => s) ss [] (os.header, v) hmem
    with h | h
  · simp at h
  · obtain ⟨t, ht, hte⟩ := h
    have h1 : os.header = t.header := congrArg Prod.fst hte
    have h2 : v = t := congrArg Prod.snd hte
    have h3 : t = os := List.inj_on_of_nodup_map hnd ht hos h1.symm
    rw [hv, h2, h3]

/-- Every paragraph of the new list is claimed by the hash map, so the first
pass of `_compare_paragraphs` on a self-comparison emits nothing. -/
theorem comparePassOne_all_mem (newMap : List (PyStr × Paragraph))
    (newParas : List Paragraph) (os ns : PyStr) :
    ∀ (ol : List Paragraph) (processed : List PyStr),
      (∀ op ∈ ol, dmem newMap op.hash = true) →
      comparePassOne newMap newParas os ns ol processed
        = ([], processed ++ ol.map Paragraph.hash) := by
  intro ol
  induction ol with
  | nil => intro processed h; simp [comparePassOne]
  | cons op rest ih =>
      intro processed h
      have hop := h op (List.mem_cons_self ..)
      unfold comparePassOne
      rw [if_pos hop, ih _ (fun q hq => h q (List.mem_cons_of_mem _ hq))]
      simp

theorem dmem_paraHashMap (ps : List Paragraph) (p : Paragraph) (hp : p ∈ ps) :
    dmem (paraHashMap ps) p.hash = true :=
  (dmem_iff_key_mem _ _).mpr
    (key_of_mem_foldl_dictInsert Paragraph.hash (fun q => q) ps [] p hp)

theorem compareParagraphs_self (ps : List Paragraph) (os ns : PyStr) :
    compareParagraphs ps ps os ns = [] := by
  unfold compareParagraphs
  dsimp only
  rw [comparePassOne_all_mem (paraHashMap ps) ps os ns ps []
    (fun op hop => dmem_paraHashMap ps op hop)]
  dsimp only
  rw [List.nil_append]
  rw [List.map_eq_nil_iff, List.filter_eq_nil_iff]
  intro np hnp
  simp [List.contains, List.mem_map]
  exact ⟨np, hnp, rfl⟩

theorem compareSectionsGo_all_match (newMap : List (PyStr × Section)) :
    ∀ (ol : List Section) (processed : List PyStr),
      (∀ os ∈ ol, dlookup newMap os.header = some os) →
      compareSectionsGo newMap ol processed
        = ([], processed ++ ol.map Section.header) := by
  intro ol
  induction ol with
  | nil => intro processed h; simp [compareSectionsGo]
  | cons os rest ih =>
      intro processed h
      have hos := h os (List.mem_cons_self ..)
      unfold compareSectionsGo
      rw [hos]
      dsimp only
      rw [compareParagraphs_self, ih _ (fun q hq => h q (List.mem_cons_of_mem _ hq))]
      simp

theorem compareSections_self (ss : List Section)
    (hnd : (ss.map Section.header).Nodup) : compareSections ss ss = [] := by
  unfold compareSections
  dsimp only
  rw [compareSectionsGo_all_match (sectionMap ss) ss []
    (fun os hos => sectionMap_lookup_self ss hnd os hos)]
  dsimp only
  rw [List.nil_append]
  rw [List.map_eq_nil_iff, List.filter_eq_nil_iff]
  intro e he
  rcases mem_foldl_dictInsert Section.header (fun s => s) ss [] e he with h | h
  · simp at h
  · obtain ⟨t, ht, hte⟩ := h
    simp [List.contains, List.mem_map]
    exact ⟨t, ht, by rw [hte]⟩

theorem findMovedGo_self (oldS newS : List Section) (newMap : List (PyStr × PyStr)) :
    ∀ (entries : List (PyStr × PyStr)),
      (∀ e ∈ entries, dlookup newMap e.1 = some e.2) →
      findMovedGo oldS newS newMap entries = [] := by
  intro entries
  induction entries with
  | nil => intro h; rfl
  | cons e rest ih =>
      intro h
      obtain ⟨eh, ehdr⟩ := e
      have he := h (eh, ehdr) (List.mem_cons_self ..)
      unfold findMovedGo
      rw [he]
      simp only
      rw [if_neg (by simp)]
      exact ih (fun q hq => h q (List.mem_cons_of_mem _ hq))

theorem findMovedParagraphs_self (ss : List Section) :
    findMovedParagraphs ss ss = [] := by
  unfold findMovedParagraphs
  exact findMovedGo_self ss ss (paraSecMap ss) (paraSecMap ss)
    (fun e he => dlookup_of_mem_dkeys _ e.1 e.2 (paraSecMap_dkeys ss) he)

/-- **C1** (amended): for a signature whose section headers are pairwise
distinct, comparing it with itself yields no section changes and no moved
paragraphs, hence zero sections and paragraphs added, removed or modified;
`similarity_percentage` is exactly 100 when the signature has at least one
word, but it is 0 (not at least 99) for an empty signature, and with
duplicate section headers a self-comparison can even report removed and
added paragraphs (see the counterexample). -/
theorem c1_self_compare (S : ContentSignature)
    (hnd : (S.sections.map Section.header).Nodup) :
    (compareMeetings S S).section_changes = [] ∧
    (compareMeetings S S).moved_paragraphs = [] ∧
    (compareMeetings S S).summary.total_sections_added = 0 ∧
    (compareMeetings S S).summary.total_sections_removed = 0 ∧
    (compareMeetings S S).summary.total_sections_modified = 0 ∧
    (compareMeetings S S).summary.total_paragraphs_added = 0 ∧
    (compareMeetings S S).summary.total_paragraphs_removed = 0 ∧
    (compareMeetings S S).summary.total_paragraphs_modified = 0 ∧
    (0 < S.total_words →
      (compareMeetings S S).summary.similarity_percentage = 100) ∧
    (S.total_words = 0 →
      (compareMeetings S S).summary.similarity_percentage = 0) := by
  have hsc := compareSections_self S.sections hnd
  have hmv := findMovedParagraphs_self S.sections
  have hcm : compareMeetings S S =
      { old_meeting_id := S.meeting_id
        new_meeting_id := S.meeting_id
        section_changes := []
        moved_paragraphs := []
        summary := generateSummary [] [] S S } := by
    unfold compareMeetings
    rw [hsc, hmv]
  rw [hcm]
  unfold generateSummary
  dsimp only [List.foldl_nil, List.length_nil]
  by_cases htw : 0 < S.total_words
  · rw [if_pos (Or.inl htw)]
    refine ⟨rfl, rfl, rfl, rfl, rfl, rfl, rfl, rfl, ?_, ?_⟩
    · intro _
      show (if max S.total_words S.total_words > 0 then _ else (0 : ℚ)) = 100
      rw [if_pos (by simpa using htw)]
      have h0 : (S.total_words : ℚ) ≠ 0 :=
        Nat.cast_ne_zero.mpr (Nat.pos_iff_ne_zero.mp htw)
      simp only [min_self, max_self, Nat.cast_zero]
      push_cast
      rw [sub_zero, sub_zero, max_eq_right (by positivity)]
      rw [div_self h0, one_mul]
    · intro h0
      exact absurd (h0 ▸ htw) (lt_irrefl 0)
  · rw [if_neg (by simpa using htw)]
    exact ⟨rfl, rfl, rfl, rfl, rfl, rfl, rfl, rfl,
      fun h => absurd h htw, fun _ => rfl⟩

/-- The C1 witness input: two distinct headed sections with some words. -/
def c1SigW : ContentSignature :=
  createContentSignature (pys "m") (pys "# A\nalpha beta\n\n# B\ngamma") (pys "t")

theorem c1_witness :
    (c1SigW.sections.map Section.header).Nodup ∧ 0 < c1SigW.total_words ∧
    (compareMeetings c1SigW c1SigW).section_changes = [] ∧
    (compareMeetings c1SigW c1SigW).moved_paragraphs = [] ∧
    (compareMeetings c1SigW c1SigW).summary.similarity_percentage = 100 := by
  have hnd : (c1SigW.sections.map Section.header).Nodup := by
    with_unfolding_all decide
  have htw : 0 < c1SigW.total_words := by with_unfolding_all decide
  have h := c1_self_compare c1SigW hnd
  exact ⟨hnd, htw, h.1, h.2.1, h.2.2.2.2.2.2.2.2.1 htw⟩

/-- The C1 empty input: no sections, no words. -/
def c1SigE : ContentSignature :=
  createContentSignature (pys "m") (pys "") (pys "t")

/-- The C1 duplicate-header input: two sections both headed `H`. -/
def c1SigD : ContentSignature :=
  createContentSignature (pys "m")
    (pys "# H\nalpha beta gamma\n\n# H\ndelta epsilon zeta") (pys "t")

/-- **C1** as stated is refuted twice: the empty signature self-compares
with zero changes but `similarity_percentage` 0, far below 99; and a
signature with two sections sharing the header `H` self-compares with one
paragraph reported removed and one added, because the header-keyed section
dict collapses the duplicate header onto the last section. -/
theorem c1_counterexample :
    ((compareMeetings c1SigE c1SigE).summary.total_paragraphs_added = 0 ∧
     (compareMeetings c1SigE c1SigE).summary.total_paragraphs_removed = 0 ∧
     (compareMeetings c1SigE c1SigE).summary.total_paragraphs_modified = 0 ∧
     (compareMeetings c1SigE c1SigE).summary.total_sections_added = 0 ∧
     (compareMeetings c1SigE c1SigE).summary.total_sections_removed = 0 ∧
     (compareMeetings c1SigE c1SigE).summary.total_sections_modified = 0 ∧
     (compareMeetings c1SigE c1SigE).summary.similarity_percentage = 0 ∧
     ¬ (99 ≤ (compareMeetings c1SigE c1SigE).summary.similarity_percentage)) ∧
    ((compareMeetings c1SigD c1SigD).summary.total_paragraphs_removed = 1 ∧
     (compareMeetings c1SigD c1SigD).summary.total_paragraphs_added = 1) := by
  refine ⟨⟨?_, ?_, ?_, ?_, ?_, ?_, ?_, ?_⟩, ?_, ?_⟩ <;> with_unfolding_all decide

end MNH
